import Mathlib

/-!
Verification of the local Git file-system service (`GitFileSystemService`).

The service is embedded shallowly: every effectful primitive (filesystem
stat/write/remove, git subprocess invocations) is resolved through an
explicit environment (`GitEnv`) of oracles, and each service method is a
pure function returning a result together with the list of effects it
performed (`GFS`).  The neverthrow `ResultAsync` chains of the source are
translated combinator-by-combinator (`andThen`, `orElse`, `map`,
`combine`).
-/

set_option maxHeartbeats 1000000

namespace GitFS

/-- Whether the first list is an initial segment of the second. -/
def listStartsWith : List Char → List Char → Bool
  | [], _ => true
  | _ :: _, [] => false
  | p :: ps, c :: cs => p = c && listStartsWith ps cs

/-- Whether the pattern occurs inside the list. -/
def listHasSub (pat : List Char) : List Char → Bool
  | [] => listStartsWith pat []
  | c :: cs => listStartsWith pat (c :: cs) || listHasSub pat cs

/-- Substring test mirroring JavaScript `String.prototype.includes`. -/
def strIncludes (s pat : String) : Bool :=
  listHasSub pat.toList s.toList

/-- Split a character list on a separator character; every input maps to
at least one (possibly empty) segment. -/
def splitOnChar (sep : Char) : List Char → List (List Char)
  | [] => [[]]
  | c :: rest =>
    let r := splitOnChar sep rest
    if c = sep then [] :: r
    else
      match r with
      | [] => [[c]]
      | h :: t => (c :: h) :: t

/-- Split on a single-character separator, mirroring JavaScript
`String.prototype.split` at the call sites of the service (which only
split on "/", " " and "."). -/
def jsSplit (s : String) (sep : Char) : List String :=
  (splitOnChar sep s.toList).map (fun l => String.mk l)

/-- ASCII whitespace test for `jsTrim`. -/
def isSpaceChar (c : Char) : Bool :=
  c = ' ' || c = '\t' || c = '\n' || c = '\r'

/-- Whitespace trim mirroring JavaScript `String.prototype.trim`. -/
def jsTrim (s : String) : String :=
  String.mk
    (((s.toList.dropWhile isSpaceChar).reverse.dropWhile isSpaceChar).reverse)

/-- Configuration constants.  In the repository these are imported from a
constants module (EFS volume paths, GitHub organisation name, the two fixed
branch names); they are kept abstract here as plain data. -/
structure Config where
  stagingVol : String
  stagingLiteVol : String
  orgName : String
  stagingBranch : String
  stagingLiteBranch : String
  deriving DecidableEq, Repr

/-- Result of `fs.stat`: the subset of `fs.Stats` the service consults. -/
structure FileStats where
  isFile : Bool
  isDirectory : Bool
  size : Nat
  deriving DecidableEq, Repr

/-- A thrown JavaScript value, as discriminated by the service's error
mappers (`instanceof GitError`, `instanceof Error`, anything else). -/
inductive Thrown where
  | gitError (msg : String)
  | jsError (msg : String)
  | nonError
  deriving DecidableEq, Repr

/-- Outcome of one underlying effectful call: either a value or a thrown
JavaScript value. -/
inductive Outcome (α : Type) where
  | ok (a : α)
  | threw (t : Thrown)
  deriving DecidableEq, Repr

/-- Whether a thrown value is an `Error` instance whose message includes
the given fragment (GitError extends Error). -/
def Thrown.isErrorWith (t : Thrown) (pat : String) : Bool :=
  match t with
  | .gitError m => strIncludes m pat
  | .jsError m => strIncludes m pat
  | .nonError => false

/-- Whether a thrown value is an `Error` instance. -/
def Thrown.isError : Thrown → Bool
  | .gitError _ => true
  | .jsError _ => true
  | .nonError => false

/-- Message carried by a thrown `Error` (empty for non-Error throws). -/
def Thrown.message : Thrown → String
  | .gitError m => m
  | .jsError m => m
  | .nonError => ""

/-- File encodings accepted by the service. -/
inductive Encoding where
  | utf8
  | base64
  deriving DecidableEq, Repr

/-- The structured commit-message payload (`IsomerCommitMessage`). -/
structure CommitMsg where
  message : String
  userId : String
  fileName : Option String
  deriving DecidableEq, Repr

/-- Fields of one `simple-git` log entry (`DefaultLogFields`). -/
structure DefaultLogFields where
  author_name : String
  author_email : String
  date : String
  message : String
  hash : String
  deriving DecidableEq, Repr

/-- The part of a `simple-git` `LogResult` the service consults. -/
structure LogSummary where
  latest : Option DefaultLogFields
  deriving DecidableEq, Repr

/-- One directory entry as returned by `fs.readdir` with `withFileTypes`. -/
structure DirEnt where
  name : String
  isDirectory : Bool
  deriving DecidableEq, Repr

/-- Effects the service can perform, recorded in execution order. -/
inductive Effect where
  | stat (path : String)
  | checkIsRepo (path : String)
  | getRemoteUrl (path : String)
  | currentBranch (path : String)
  | checkout (path branch : String)
  | revparseBlob (path filePath : String)
  | gitLog (path ref : String)
  | resetHard (path sha : String)
  | clean (path : String)
  | pullCmd (path : String)
  | pushCmd (path : String) (args : List String)
  | gitAdd (path : String) (pathSpec : List String)
  | gitCommit (path : String) (msg : CommitMsg)
  | gitMv (path oldPath newPath : String)
  | catFile (path sha : String)
  | mkdir (path : String) (recursive : Bool)
  | writeFile (path content : String) (enc : Encoding)
  | rmFile (path : String) (recursive : Bool)
  | renameFile (oldPath newPath : String)
  | readFile (path : String) (enc : Encoding)
  | readdir (path : String)
  deriving DecidableEq, Repr

/-- Environment of oracles fixing the outcome of every underlying call.
Filesystem calls are keyed by the full path the service constructs; git
calls additionally by their arguments. -/
structure GitEnv where
  stat : String → Outcome FileStats
  checkIsRepo : String → Outcome Bool
  getRemoteUrl : String → Outcome String
  currentBranch : String → Outcome String
  checkout : String → String → Outcome Unit
  revparseBlob : String → String → Outcome String
  gitLog : String → String → Outcome LogSummary
  resetHardClean : String → String → Outcome Unit
  resetHard : String → String → Outcome Unit
  pullCmd : String → Outcome Unit
  pushCmd : String → List String → Outcome Unit
  gitAdd : String → List String → Outcome Unit
  gitCommit : String → CommitMsg → Outcome String
  gitMv : String → String → String → Outcome Unit
  catFile : String → String → Outcome String
  mkdir : String → Bool → Outcome Unit
  writeFile : String → String → Encoding → Outcome Unit
  rmFile : String → Bool → Outcome Unit
  renameFile : String → String → Outcome Unit
  readFile : String → Encoding → Outcome String
  readdir : String → Outcome (List DirEnt)

/-- Error values of the service, one constructor per error class the
source discriminates with `instanceof` (plus the raw booleans that
`isValidGitRepo` and `pull` temporarily smuggle through the error
channel). -/
inductive E where
  | notFound (msg : String)
  | conflict (msg : String)
  | badRequest (msg : String)
  | gitFs (msg : String)
  | needsRollback (msg : String)
  | mediaType (msg : String)
  | boolErr (b : Bool)
  deriving DecidableEq, Repr

instance {ε α : Type} [DecidableEq ε] [DecidableEq α] :
    DecidableEq (Except ε α)
  | .ok a, .ok b =>
    if h : a = b then .isTrue (congrArg Except.ok h)
    else .isFalse (fun he => h (Except.ok.inj he))
  | .ok _, .error _ => .isFalse (fun he => Except.noConfusion he)
  | .error _, .ok _ => .isFalse (fun he => Except.noConfusion he)
  | .error e, .error f =>
    if h : e = f then .isTrue (congrArg Except.error h)
    else .isFalse (fun he => h (Except.error.inj he))

/-- A computation of the service: a result plus the effects performed. -/
structure GFS (α : Type) where
  result : Except E α
  trace : List Effect
  deriving Repr

namespace GFS

/-- Successful computation with no effects (`okAsync`). -/
def pur (a : α) : GFS α := ⟨.ok a, []⟩

/-- Failed computation with no effects (`errAsync`). -/
def fail (e : E) : GFS α := ⟨.error e, []⟩

/-- Primitive: one effect together with its mapped result. -/
def prim (eff : Effect) (r : Except E α) : GFS α := ⟨r, [eff]⟩

/-- Sequencing (`ResultAsync.andThen`). -/
def andThen (m : GFS α) (f : α → GFS β) : GFS β :=
  match m.result with
  | .ok a => ⟨(f a).result, m.trace ++ (f a).trace⟩
  | .error e => ⟨.error e, m.trace⟩

/-- Error handling (`ResultAsync.orElse`). -/
def orElse (m : GFS α) (f : E → GFS α) : GFS α :=
  match m.result with
  | .ok a => ⟨.ok a, m.trace⟩
  | .error e => ⟨(f e).result, m.trace ++ (f e).trace⟩

/-- Result mapping (`ResultAsync.map`). -/
def map (m : GFS α) (f : α → β) : GFS β :=
  ⟨m.result.map f, m.trace⟩

@[simp] theorem pur_result (a : α) : (pur a).result = .ok a := rfl
@[simp] theorem pur_trace (a : α) : (pur a).trace = [] := rfl
@[simp] theorem fail_result (e : E) : (fail e : GFS α).result = .error e := rfl
@[simp] theorem fail_trace (e : E) : (fail e : GFS α).trace = [] := rfl
@[simp] theorem prim_result (eff : Effect) (r : Except E α) :
    (prim eff r).result = r := rfl
@[simp] theorem prim_trace (eff : Effect) (r : Except E α) :
    (prim eff r).trace = [eff] := rfl

theorem andThen_ok {m : GFS α} {f : α → GFS β} {a : α} (h : m.result = .ok a) :
    m.andThen f = ⟨(f a).result, m.trace ++ (f a).trace⟩ := by
  unfold andThen
  rw [h]

theorem andThen_error {m : GFS α} {f : α → GFS β} {e : E}
    (h : m.result = .error e) : m.andThen f = ⟨.error e, m.trace⟩ := by
  unfold andThen
  rw [h]

theorem orElse_ok {m : GFS α} {f : E → GFS α} {a : α} (h : m.result = .ok a) :
    m.orElse f = ⟨.ok a, m.trace⟩ := by
  unfold orElse
  rw [h]

theorem orElse_error {m : GFS α} {f : E → GFS α} {e : E}
    (h : m.result = .error e) :
    m.orElse f = ⟨(f e).result, m.trace ++ (f e).trace⟩ := by
  unfold orElse
  rw [h]

@[simp] theorem map_result (m : GFS α) (f : α → β) :
    (m.map f).result = m.result.map f := rfl
@[simp] theorem map_trace (m : GFS α) (f : α → β) :
    (m.map f).trace = m.trace := rfl

/-- Sequence a list of `Except` results, returning the first error
(neverthrow `combine` result semantics). -/
def seqExcept : List (Except E α) → Except E (List α)
  | [] => .ok []
  | .ok a :: rest =>
    match seqExcept rest with
    | .ok l => .ok (a :: l)
    | .error e => .error e
  | .error e :: _ => .error e

/-- neverthrow `combine` over eagerly-started computations: all effects
occur, the result is the first error (or the list of successes). -/
def combineAll (ms : List (GFS α)) : GFS (List α) :=
  ⟨seqExcept (ms.map (·.result)), (ms.map (·.trace)).flatten⟩

/-- Every effect in the trace satisfies the given predicate. -/
def TraceAll (p : Effect → Bool) (m : GFS α) : Prop :=
  ∀ e ∈ m.trace, p e = true

theorem traceAll_pur (p : Effect → Bool) (a : α) : TraceAll p (pur a) := by
  intro e he
  simp [pur] at he

theorem traceAll_fail (p : Effect → Bool) (e : E) :
    TraceAll p (fail e : GFS α) := by
  intro x hx
  simp [fail] at hx

theorem traceAll_prim {p : Effect → Bool} {eff : Effect} (h : p eff = true)
    (r : Except E α) : TraceAll p (prim eff r) := by
  intro x hx
  simp [prim] at hx
  rwa [hx]

theorem traceAll_andThen {p : Effect → Bool} {m : GFS α} {f : α → GFS β}
    (hm : TraceAll p m) (hf : ∀ a, TraceAll p (f a)) :
    TraceAll p (m.andThen f) := by
  intro x hx
  unfold andThen at hx
  rcases hr : m.result with e | a <;> rw [hr] at hx <;> simp at hx
  · exact hm x hx
  · rcases hx with hx | hx
    · exact hm x hx
    · exact hf a x hx

theorem traceAll_orElse {p : Effect → Bool} {m : GFS α} {f : E → GFS α}
    (hm : TraceAll p m) (hf : ∀ e, TraceAll p (f e)) :
    TraceAll p (m.orElse f) := by
  intro x hx
  unfold orElse at hx
  rcases hr : m.result with e | a <;> rw [hr] at hx <;> simp at hx
  · rcases hx with hx | hx
    · exact hm x hx
    · exact hf e x hx
  · exact hm x hx

theorem traceAll_map {p : Effect → Bool} {m : GFS α} (hm : TraceAll p m)
    (f : α → β) : TraceAll p (m.map f) := by
  intro x hx
  simp [map] at hx
  exact hm x hx

theorem traceAll_combineAll {p : Effect → Bool} {ms : List (GFS α)}
    (h : ∀ m ∈ ms, TraceAll p m) : TraceAll p (combineAll ms) := by
  intro x hx
  simp only [combineAll, List.mem_flatten] at hx
  obtain ⟨t, ht, hxt⟩ := hx
  simp only [List.mem_map] at ht
  obtain ⟨m, hm, rfl⟩ := ht
  exact h m hm x hxt

theorem seqExcept_ok_mem {rs : List (Except E α)} {l : List α}
    (h : seqExcept rs = .ok l) : ∀ a ∈ l, Except.ok a ∈ rs := by
  induction rs generalizing l with
  | nil =>
    simp [seqExcept] at h
    subst h
    simp
  | cons r rest ih =>
    match r with
    | .error e => simp [seqExcept] at h
    | .ok b =>
      unfold seqExcept at h
      rcases hr : seqExcept rest with e' | l' <;> rw [hr] at h <;> simp at h
      subst h
      intro a ha
      rcases List.mem_cons.mp ha with ha | ha
      · subst ha
        simp
      · exact List.mem_cons_of_mem _ (ih hr a ha)

theorem combineAll_ok_mem {ms : List (GFS α)} {l : List α}
    (h : (combineAll ms).result = .ok l) :
    ∀ a ∈ l, ∃ m ∈ ms, m.result = .ok a := by
  intro a ha
  simp only [combineAll] at h
  have := seqExcept_ok_mem h a ha
  simp only [List.mem_map] at this
  obtain ⟨m, hm, hr⟩ := this
  exact ⟨m, hm, hr⟩

end GFS

open GFS

/-! Service methods, translated from `GitFileSystemService`. -/

/-- Volume root for a branch (`getEfsVolPathFromBranch`). -/
def getEfsVolPathFromBranch (cfg : Config) (branchName : String) : String :=
  if branchName = cfg.stagingLiteBranch then cfg.stagingLiteVol
  else cfg.stagingVol

/-- Volume root from the staging flag (`getEfsVolPath`). -/
def getEfsVolPath (cfg : Config) (isStaging : Bool) : String :=
  if isStaging then cfg.stagingVol else cfg.stagingLiteVol

/-- The staging flag the service computes at each call site as
`branchName !== STAGING_LITE_BRANCH`. -/
def isStagingOf (cfg : Config) (branchName : String) : Bool :=
  branchName ≠ cfg.stagingLiteBranch

/-- Filesystem stats of a file or directory (`getFilePathStats`). -/
def getFilePathStats (env : GitEnv) (cfg : Config)
    (repoName filePath : String) (isStaging : Bool) : GFS FileStats :=
  let efsVolPath := getEfsVolPath cfg isStaging
  let path := efsVolPath ++ "/" ++ repoName ++ "/" ++ filePath
  prim (.stat path)
    (match env.stat path with
     | .ok stats => .ok stats
     | .threw t =>
       if t.isErrorWith "ENOENT" then
         .error (.notFound "File/Directory does not exist")
       else if t.isError then
         .error (.gitFs "Unable to read file/directory")
       else .error (.gitFs "An unknown error occurred"))

/-- Whether the working directory is a Git repository
(`isGitInitialized`); note the staging flag defaults to `true` at every
call site that omits it. -/
def isGitInitialized (env : GitEnv) (cfg : Config) (repoName : String)
    (isStaging : Bool := true) : GFS Bool :=
  let repoPath := getEfsVolPath cfg isStaging ++ "/" ++ repoName
  prim (.checkIsRepo repoPath)
    (match env.checkIsRepo repoPath with
     | .ok b => .ok b
     | .threw (.gitError _) =>
       .error (.gitFs "Unable to determine if directory is Git repo")
     | .threw _ => .error (.gitFs "An unknown error occurred"))

/-- Whether the `origin` remote URL is the canonical one
(`isOriginRemoteCorrect`); the staging flag also defaults to `true`. -/
def isOriginRemoteCorrect (env : GitEnv) (cfg : Config) (repoName : String)
    (isStaging : Bool := true) : GFS Bool :=
  let originUrl := "git@github.com:" ++ cfg.orgName ++ "/" ++ repoName ++ ".git"
  let repoPath := getEfsVolPath cfg isStaging ++ "/" ++ repoName
  (prim (.getRemoteUrl repoPath)
    (match env.getRemoteUrl repoPath with
     | .ok url => .ok url
     | .threw (.gitError _) =>
       .error (.gitFs "Unable to determine origin remote URL")
     | .threw _ => .error (.gitFs "An unknown error occurred"))).map
    (fun remoteUrl => remoteUrl ≠ "" && jsTrim remoteUrl = originUrl)

/-- Whether the folder is a valid Git repository (`isValidGitRepo`).  The
directory check uses the branch's volume, while `isGitInitialized` and
`isOriginRemoteCorrect` are invoked without the staging flag and hence use
their `true` default. -/
def isValidGitRepo (env : GitEnv) (cfg : Config)
    (repoName branchName : String) : GFS Bool :=
  ((((((getFilePathStats env cfg repoName ""
      (isStagingOf cfg branchName)).andThen (fun stats =>
        if !stats.isDirectory then fail (.boolErr false) else pur true)).orElse
      (fun error =>
        match error with
        | .notFound _ => fail (.boolErr false)
        | e => fail e)).andThen (fun _ =>
      isGitInitialized env cfg repoName)).andThen (fun init =>
        if !init then fail (.boolErr false) else pur true)).andThen (fun _ =>
      (isOriginRemoteCorrect env cfg repoName).andThen (fun correct =>
        if !correct then fail (.boolErr false) else pur true))).orElse
    (fun error =>
      match error with
      | .boolErr _ => pur false
      | e => fail e)

/-- Check out the expected branch when the working tree is on a different
one (`ensureCorrectBranch`). -/
def ensureCorrectBranch (env : GitEnv) (cfg : Config)
    (repoName branchName : String) : GFS Bool :=
  let efsVolPath := getEfsVolPathFromBranch cfg branchName
  let path := efsVolPath ++ "/" ++ repoName
  (prim (.currentBranch path)
    (match env.currentBranch path with
     | .ok b => .ok b
     | .threw (.gitError _) =>
       .error (.gitFs "Unable to determine current branch")
     | .threw _ => .error (.gitFs "An unknown error occurred"))).andThen
    (fun currentBranch =>
      if currentBranch ≠ branchName then
        prim (.checkout path branchName)
          (match env.checkout path branchName with
           | .ok _ => .ok true
           | .threw (.gitError _) => .error (.gitFs "Unable to checkout branch")
           | .threw _ => .error (.gitFs "An unknown error occurred"))
      else pur true)

/-- Git blob hash of a file at `HEAD` (`getGitBlobHash`); the staging flag
defaults to `true` at call sites that omit it. -/
def getGitBlobHash (env : GitEnv) (cfg : Config)
    (repoName filePath : String) (isStaging : Bool := true) : GFS String :=
  let efsVolPath := getEfsVolPath cfg isStaging
  let path := efsVolPath ++ "/" ++ repoName
  prim (.revparseBlob path filePath)
    (match env.revparseBlob path filePath with
     | .ok s => .ok s
     | .threw (.gitError _) =>
       .error (.gitFs "Unable to determine Git blob hash")
     | .threw _ => .error (.gitFs "An unknown error occurred"))

/-- Git log of a branch (`getGitLog`). -/
def getGitLog (env : GitEnv) (cfg : Config)
    (repoName branchName : String) : GFS LogSummary :=
  let efsVolPath := getEfsVolPathFromBranch cfg branchName
  let path := efsVolPath ++ "/" ++ repoName
  prim (.gitLog path branchName)
    (match env.gitLog path branchName with
     | .ok l => .ok l
     | .threw (.gitError _) =>
       .error (.gitFs "Unable to retrieve branch log info from disk")
     | .threw _ => .error (.gitFs "An unknown error occurred"))

/-- Commit data of a branch's latest commit (`GitHubCommitData`). -/
structure CommitData where
  authorName : String
  authorEmail : String
  authorDate : String
  message : String
  sha : String
  deriving DecidableEq, Repr

/-- Latest commit of a branch, falling back to the remote-tracking ref
(`getLatestCommitOfBranch`). -/
def getLatestCommitOfBranch (env : GitEnv) (cfg : Config)
    (repoName branchName : String) : GFS CommitData :=
  ((getGitLog env cfg repoName branchName).orElse (fun _ =>
      getGitLog env cfg repoName ("origin/" ++ branchName))).andThen
    (fun logSummary =>
      match logSummary.latest with
      | some c =>
        pur ⟨c.author_name, c.author_email, c.date, c.message, c.hash⟩
      | none =>
        fail (.gitFs "Unable to retrieve latest commit info from disk"))

/-- Hard-reset the branch to a commit and force-clean untracked files
(`rollback`). -/
def rollback (env : GitEnv) (cfg : Config)
    (repoName commitSha branchName : String) : GFS Bool :=
  let efsVolPath := getEfsVolPathFromBranch cfg branchName
  let path := efsVolPath ++ "/" ++ repoName
  ⟨(match env.resetHardClean path commitSha with
    | .ok _ => .ok true
    | .threw (.gitError _) =>
      .error (.gitFs "Unable to rollback to original state")
    | .threw _ => .error (.gitFs "An unknown error occurred")),
   [.resetHard path commitSha, .clean path]⟩

/-- Pull error messages that the service classifies as known-benign. -/
def isKnownBenignPullMsg (msg : String) : Bool :=
  strIncludes msg "but no such ref was fetched." ||
  strIncludes msg "error: cannot lock ref" ||
  strIncludes msg "Cannot fast-forward your working tree" ||
  strIncludes msg "Need to specify how to reconcile divergent branches"

/-- Pull the latest changes (`pull`); known-benign pull failures are
swallowed via a boolean smuggled through the error channel. -/
def pull (env : GitEnv) (cfg : Config)
    (repoName branchName : String) : GFS String :=
  let efsVolPath := getEfsVolPathFromBranch cfg branchName
  let path := efsVolPath ++ "/" ++ repoName
  (isValidGitRepo env cfg repoName branchName).andThen (fun isValid =>
    if !isValid then
      fail (.gitFs ("Folder \"" ++ repoName ++ "\" is not a valid Git repo"))
    else
      (ensureCorrectBranch env cfg repoName branchName).andThen (fun _ =>
        prim (.pullCmd path)
          (match env.pullCmd path with
           | .ok _ => .ok ()
           | .threw (.gitError m) =>
             if isKnownBenignPullMsg m then .error (.boolErr false)
             else .error (.gitFs "Unable to pull latest changes of repo")
           | .threw _ =>
             .error (.gitFs "An unknown error occurred"))
        |>.map (fun _ => true)
        |>.orElse (fun error =>
            match error with
            | .boolErr _ => pur true
            | e => fail e)
        |>.map (fun _ => path)))

/-- One push invocation with the given argument list. -/
def pushPrim (env : GitEnv) (path : String) (args : List String) : GFS Unit :=
  prim (.pushCmd path args)
    (match env.pushCmd path args with
     | .ok _ => .ok ()
     | .threw (.gitError _) =>
       .error (.gitFs "Unable to push latest changes of repo")
     | .threw _ => .error (.gitFs "An unknown error occurred"))

/-- Push the latest changes (`push`): validate, ensure the branch, push,
and on failure retry exactly once (the retry passes no refspec). -/
def push (env : GitEnv) (cfg : Config) (repoName branchName : String)
    (isForce : Bool := false) : GFS String :=
  let efsVolPath := getEfsVolPathFromBranch cfg branchName
  let path := efsVolPath ++ "/" ++ repoName
  (isValidGitRepo env cfg repoName branchName).andThen (fun isValid =>
    if !isValid then
      fail (.gitFs ("Folder \"" ++ repoName ++ "\" is not a valid Git repo"))
    else
      let gitOptions := jsSplit ("origin " ++ branchName) ' '
      (ensureCorrectBranch env cfg repoName branchName).andThen (fun _ =>
          pushPrim env path
            (if isForce then gitOptions ++ ["--force"] else gitOptions))
      |>.orElse (fun _ =>
          pushPrim env path (if isForce then ["--force"] else []))
      |>.map (fun _ => path))

/-- Commit staged or specified changes (`commit`); a pathSpec of length
other than 1 or 2 is rejected before any `git add` or `git commit`. -/
def commit (env : GitEnv) (cfg : Config) (repoName : String)
    (pathSpec : List String) (userId message branchName : String)
    (skipGitAdd : Bool := false) : GFS String :=
  let efsVolPath := getEfsVolPathFromBranch cfg branchName
  let path := efsVolPath ++ "/" ++ repoName
  (isValidGitRepo env cfg repoName branchName).andThen (fun isValid =>
    if !isValid then
      fail (.gitFs ("Folder \"" ++ repoName ++ "\" is not a valid Git repo"))
    else if pathSpec.length < 1 || pathSpec.length > 2 then
      fail (.gitFs ("Invalid pathSpec length: " ++ toString pathSpec.length ++
        ". Expected 1 or 2"))
    else
      let commitMessage : CommitMsg :=
        ⟨message, userId,
         if pathSpec.length = 1 then (jsSplit (pathSpec.headD "") '/').getLast?
         else none⟩
      ((ensureCorrectBranch env cfg repoName branchName).andThen (fun _ =>
          if skipGitAdd then pur true
          else
            prim (.gitAdd path pathSpec)
              (match env.gitAdd path pathSpec with
               | .ok _ => .ok true
               | .threw (.gitError _) =>
                 .error (.needsRollback "Unable to commit changes")
               | .threw _ =>
                 .error (.needsRollback "An unknown error occurred")))).andThen
        (fun _ =>
          prim (.gitCommit path commitMessage)
            (match env.gitCommit path commitMessage with
             | .ok sha => .ok sha
             | .threw (.gitError _) =>
               .error (.needsRollback "Unable to commit changes")
             | .threw _ =>
               .error (.needsRollback "An unknown error occurred"))))

/-- Shared tail of every mutating operation: convert a needs-rollback
failure into a rollback to the captured SHA followed by a plain
`GitFileSystemError` carrying the original message. -/
def rollbackGuard (env : GitEnv) (cfg : Config)
    (repoName oldStateSha branchName : String) (m : GFS α) : GFS α :=
  m.orElse (fun error =>
    match error with
    | .needsRollback msg =>
      (rollback env cfg repoName oldStateSha branchName).andThen (fun _ =>
        fail (.gitFs msg))
    | e => fail e)

/-- Result of a successful `create`. -/
structure GitCommitResult where
  newSha : String
  deriving DecidableEq, Repr

/-- Steps of `create` that run after the rollback anchor is captured. -/
def createCore (env : GitEnv) (cfg : Config)
    (repoName userId content directoryName fileName : String)
    (encoding : Encoding) (branchName : String) : GFS GitCommitResult :=
  let efsVolPath := getEfsVolPathFromBranch cfg branchName
  let filePath :=
    if directoryName ≠ "" then directoryName ++ "/" ++ fileName else fileName
  let pathToEfsDir := efsVolPath ++ "/" ++ repoName ++ "/" ++ directoryName ++ "/"
  let pathToEfsFile := efsVolPath ++ "/" ++ repoName ++ "/" ++ filePath
  (getFilePathStats env cfg repoName directoryName
      (isStagingOf cfg branchName))
  |>.andThen (fun stats =>
      if stats.isDirectory then pur true else fail (.notFound ""))
  |>.orElse (fun error =>
      match error with
      | .notFound _ =>
        (prim (.mkdir pathToEfsDir false)
          (match env.mkdir pathToEfsDir false with
           | .ok _ => .ok ()
           | .threw _ =>
             .error (.gitFs "An unknown error occurred"))).map (fun _ => true)
      | e => fail e)
  |>.andThen (fun _ =>
      getFilePathStats env cfg repoName filePath
        (isStagingOf cfg branchName))
  |>.andThen (fun stats =>
      if stats.isFile then
        fail (.conflict ("File " ++ filePath ++ " already exists in repo " ++
          repoName))
      else pur true)
  |>.orElse (fun error =>
      match error with
      | .notFound _ => pur true
      | e => fail e)
  |>.andThen (fun _ =>
      prim (.writeFile pathToEfsFile content encoding)
        (match env.writeFile pathToEfsFile content encoding with
         | .ok _ => .ok ()
         | .threw t =>
           if t.isError then .error (.needsRollback t.message)
           else .error (.needsRollback "An unknown error occurred")))
  |>.andThen (fun _ =>
      commit env cfg repoName [pathToEfsFile] userId
        ("Create file: " ++ filePath) branchName)
  |>.map (fun c => GitCommitResult.mk c)

/-- Create a file, and its directory if absent (`create`). -/
def create (env : GitEnv) (cfg : Config)
    (repoName userId content directoryName fileName : String)
    (encoding : Encoding) (branchName : String) : GFS GitCommitResult :=
  (getLatestCommitOfBranch env cfg repoName branchName).andThen
    (fun latestCommit =>
      (if latestCommit.sha = "" then
        fail (.gitFs "An unknown error occurred")
      else pur latestCommit.sha).andThen (fun oldStateSha =>
        rollbackGuard env cfg repoName oldStateSha branchName
          (createCore env cfg repoName userId content directoryName fileName
            encoding branchName)))

/-- Steps of `update` that run after the rollback anchor is captured. -/
def updateCore (env : GitEnv) (cfg : Config)
    (repoName filePath fileContent oldSha userId branchName : String) :
    GFS String :=
  let efsVolPath := getEfsVolPathFromBranch cfg branchName
  (getFilePathStats env cfg repoName filePath
      (isStagingOf cfg branchName))
  |>.andThen (fun stats =>
      if !stats.isFile then
        fail (.gitFs ("Path \"" ++ filePath ++ "\" is not a valid file in repo \"" ++
          repoName ++ "\""))
      else pur true)
  |>.andThen (fun _ =>
      (getGitBlobHash env cfg repoName filePath).andThen (fun sha =>
        if sha ≠ oldSha then
          fail (.conflict "File has been changed recently, please try again")
        else pur sha))
  |>.andThen (fun _ =>
      prim (.writeFile (efsVolPath ++ "/" ++ repoName ++ "/" ++ filePath)
          fileContent .utf8)
        (match env.writeFile (efsVolPath ++ "/" ++ repoName ++ "/" ++ filePath)
            fileContent .utf8 with
         | .ok _ => .ok ()
         | .threw t =>
           if t.isError then .error (.needsRollback "Unable to update file on disk")
           else .error (.needsRollback "An unknown error occurred")))
  |>.andThen (fun _ =>
      commit env cfg repoName [filePath] userId
        ("Update file: " ++ ((jsSplit filePath '/').getLast?.getD ""))
        branchName)

/-- Update the contents of a file (`update`). -/
def update (env : GitEnv) (cfg : Config)
    (repoName filePath fileContent oldSha userId branchName : String) :
    GFS String :=
  (getLatestCommitOfBranch env cfg repoName branchName).andThen
    (fun latestCommit =>
      rollbackGuard env cfg repoName latestCommit.sha branchName
        (updateCore env cfg repoName filePath fileContent oldSha userId
          branchName))

/-- Steps of `delete` that run after the rollback anchor is captured. -/
def deleteCore (env : GitEnv) (cfg : Config)
    (repoName path oldSha userId : String) (isDir : Bool)
    (branchName : String) : GFS String :=
  let efsVolPath := getEfsVolPathFromBranch cfg branchName
  (getFilePathStats env cfg repoName path (isStagingOf cfg branchName))
  |>.andThen (fun stats =>
      if isDir && !stats.isDirectory then
        fail (.gitFs ("Path \"" ++ path ++ "\" is not a valid directory in repo \"" ++
          repoName ++ "\""))
      else if !isDir && !stats.isFile then
        fail (.gitFs ("Path \"" ++ path ++ "\" is not a valid file in repo \"" ++
          repoName ++ "\""))
      else pur true)
  |>.andThen (fun _ =>
      if isDir then pur ()
      else
        ((getGitBlobHash env cfg repoName path).andThen (fun sha =>
          if sha ≠ oldSha then
            fail (.conflict "File has been changed recently, please try again")
          else pur sha)).map (fun _ => ()))
  |>.andThen (fun _ =>
      prim (.rmFile (efsVolPath ++ "/" ++ repoName ++ "/" ++ path) isDir)
        (match env.rmFile (efsVolPath ++ "/" ++ repoName ++ "/" ++ path) isDir with
         | .ok _ => .ok ()
         | .threw t =>
           if t.isError then
             .error (.needsRollback ("Unable to delete " ++
               (if isDir then "directory" else "file") ++ " on disk"))
           else .error (.needsRollback "An unknown error occurred")))
  |>.andThen (fun _ =>
      commit env cfg repoName [path] userId
        ("Delete " ++
          (if isDir then "directory: " ++ path
           else "file: " ++ ((jsSplit path '/').getLast?.getD "")))
        branchName)

/-- Delete a file or directory (`delete`). -/
def delete (env : GitEnv) (cfg : Config) (repoName path oldSha userId : String)
    (isDir : Bool) (branchName : String) : GFS String :=
  (getLatestCommitOfBranch env cfg repoName branchName).andThen
    (fun latestCommit =>
      (if latestCommit.sha = "" then
        fail (.gitFs ("Unable to find latest commit of repo: " ++ repoName ++
          " on branch \"" ++ branchName ++ "\""))
      else pur latestCommit.sha).andThen (fun oldStateSha =>
        rollbackGuard env cfg repoName oldStateSha branchName
          (deleteCore env cfg repoName path oldSha userId isDir branchName)))

/-- JavaScript `a || b` on strings: an empty message falls back. -/
def strOrDefault (m dflt : String) : String :=
  if m = "" then dflt else m

/-- Steps of `renameSinglePath` after the rollback anchor is captured. -/
def renameCore (env : GitEnv) (cfg : Config)
    (repoName oldPath newPath userId branchName : String)
    (message : Option String) : GFS String :=
  let efsVolPath := getEfsVolPathFromBranch cfg branchName
  let path := efsVolPath ++ "/" ++ repoName
  (getFilePathStats env cfg repoName oldPath
      (isStagingOf cfg branchName))
  |>.andThen (fun _ =>
      (((getFilePathStats env cfg repoName newPath
          (isStagingOf cfg branchName)).andThen (fun _ =>
            (fail (.conflict "File path already exists") : GFS Bool))).map
        (fun _ => true)).orElse (fun error =>
          match error with
          | .notFound _ => pur true
          | e => fail e))
  |>.andThen (fun _ =>
      prim (.gitMv path oldPath newPath)
        (match env.gitMv path oldPath newPath with
         | .ok _ => .ok ()
         | .threw (.gitError _) =>
           .error (.needsRollback ("Unable to rename " ++ oldPath ++ " to " ++
             newPath))
         | .threw _ => .error (.needsRollback "An unknown error occurred")))
  |>.andThen (fun _ =>
      commit env cfg repoName [oldPath, newPath] userId
        (strOrDefault (message.getD "")
          ("Renamed " ++ oldPath ++ " to " ++ newPath))
        branchName true)

/-- Rename a single file or directory (`renameSinglePath`). -/
def renameSinglePath (env : GitEnv) (cfg : Config)
    (repoName oldPath newPath userId branchName : String)
    (message : Option String) : GFS String :=
  (getLatestCommitOfBranch env cfg repoName branchName).andThen
    (fun latestCommit =>
      rollbackGuard env cfg repoName latestCommit.sha branchName
        (renameCore env cfg repoName oldPath newPath userId branchName
          message))

/-- Steps of `moveFiles` after the rollback anchor is captured. -/
def moveCore (env : GitEnv) (cfg : Config)
    (repoName oldPath newPath userId : String) (targetFiles : List String)
    (branchName : String) (message : Option String) : GFS String :=
  let efsVolPath := getEfsVolPathFromBranch cfg branchName
  (getFilePathStats env cfg repoName oldPath
      (isStagingOf cfg branchName))
  |>.andThen (fun stats =>
      if !stats.isDirectory then
        fail (.gitFs ("Path \"" ++ oldPath ++ "\" is not a valid directory in repo \"" ++
          repoName ++ "\""))
      else pur true)
  |>.andThen (fun _ =>
      prim (.mkdir (efsVolPath ++ "/" ++ repoName ++ "/" ++ newPath) true)
        (match env.mkdir (efsVolPath ++ "/" ++ repoName ++ "/" ++ newPath) true with
         | .ok _ => .ok ()
         | .threw t =>
           if t.isError then
             .error (.needsRollback ("Unable to create " ++ newPath))
           else .error (.needsRollback "An unknown error occurred")))
  |>.andThen (fun _ =>
      combineAll (targetFiles.map (fun targetFile =>
        ((((getFilePathStats env cfg repoName (newPath ++ "/" ++ targetFile)
            (isStagingOf cfg branchName)).andThen (fun _ =>
              (fail (.conflict "File path already exists") : GFS Bool))).map
          (fun _ => true)).orElse (fun error =>
            match error with
            | .notFound _ => pur true
            | e => fail e)).andThen (fun _ =>
          prim (.renameFile
              (efsVolPath ++ "/" ++ repoName ++ "/" ++ oldPath ++ "/" ++ targetFile)
              (efsVolPath ++ "/" ++ repoName ++ "/" ++ newPath ++ "/" ++ targetFile))
            (match env.renameFile
                (efsVolPath ++ "/" ++ repoName ++ "/" ++ oldPath ++ "/" ++ targetFile)
                (efsVolPath ++ "/" ++ repoName ++ "/" ++ newPath ++ "/" ++ targetFile) with
             | .ok _ => .ok true
             | .threw (.gitError _) =>
               .error (.needsRollback ("Unable to move " ++ targetFile ++
                 " to " ++ newPath))
             | .threw _ =>
               .error (.needsRollback "An unknown error occurred"))))))
  |>.andThen (fun _ =>
      commit env cfg repoName [oldPath, newPath] userId
        (strOrDefault (message.getD "")
          ("Moved selected files from " ++ oldPath ++ " to " ++ newPath))
        branchName)

/-- Move a batch of files between directories (`moveFiles`). -/
def moveFiles (env : GitEnv) (cfg : Config)
    (repoName oldPath newPath userId : String) (targetFiles : List String)
    (branchName : String) (message : Option String) : GFS String :=
  (getLatestCommitOfBranch env cfg repoName branchName).andThen
    (fun latestCommit =>
      rollbackGuard env cfg repoName latestCommit.sha branchName
        (moveCore env cfg repoName oldPath newPath userId targetFiles
          branchName message))

/-- One entry of a directory listing (`GitDirectoryItem`). -/
structure GitDirectoryItem where
  name : String
  type : String
  sha : String
  path : String
  size : Nat
  deriving DecidableEq, Repr

/-- List the contents of a directory (`listDirectoryContents`); entries
whose blob-hash lookup fails get an empty SHA and are filtered out. -/
def listDirectoryContents (env : GitEnv) (cfg : Config)
    (repoName directoryPath branchName : String) :
    GFS (List GitDirectoryItem) :=
  let efsVolPath := getEfsVolPathFromBranch cfg branchName
  (getFilePathStats env cfg repoName directoryPath
      (isStagingOf cfg branchName))
  |>.andThen (fun stats =>
      if !stats.isDirectory then
        fail (.gitFs ("Path \"" ++ directoryPath ++ "\" is not a valid directory in repo \"" ++
          repoName ++ "\""))
      else pur true)
  |>.andThen (fun _ =>
      prim (.readdir (efsVolPath ++ "/" ++ repoName ++ "/" ++ directoryPath))
        (match env.readdir (efsVolPath ++ "/" ++ repoName ++ "/" ++ directoryPath) with
         | .ok l => .ok l
         | .threw t =>
           if t.isError then .error (.gitFs "Unable to read directory")
           else .error (.gitFs "An unknown error occurred")))
  |>.andThen (fun directoryContents =>
      combineAll (directoryContents.map (fun directoryItem =>
        let name := directoryItem.name
        let path :=
          if directoryPath = "" then name else directoryPath ++ "/" ++ name
        let type := if directoryItem.isDirectory then "dir" else "file"
        ((getGitBlobHash env cfg repoName path).orElse (fun _ =>
            pur "")).andThen (fun sha =>
          (getFilePathStats env cfg repoName path
              (isStagingOf cfg branchName)).andThen (fun stats =>
            pur (GitDirectoryItem.mk name type sha path
              (if type = "dir" then 0 else stats.size)))))))
  |>.andThen (fun directoryItems =>
      pur (directoryItems.filter (fun item => item.sha ≠ "")))

/-- A file's content and blob SHA (`GitFile`). -/
structure GitFile where
  content : String
  sha : String
  deriving DecidableEq, Repr

/-- Read a file's contents and blob SHA (`read`); always reads from the
staging volume. -/
def read (env : GitEnv) (cfg : Config) (repoName filePath : String)
    (encoding : Encoding := .utf8) : GFS GitFile :=
  let defaultEfsVolPath := cfg.stagingVol
  (combineAll
    [prim (.readFile (defaultEfsVolPath ++ "/" ++ repoName ++ "/" ++ filePath)
        encoding)
      (match env.readFile (defaultEfsVolPath ++ "/" ++ repoName ++ "/" ++ filePath)
          encoding with
       | .ok c => .ok c
       | .threw t =>
         if t.isErrorWith "ENOENT" then .error (.notFound "File does not exist")
         else if t.isError then .error (.gitFs "Unable to read file")
         else .error (.gitFs "An unknown error occurred")),
     getGitBlobHash env cfg repoName filePath]).map (fun contentAndHash =>
    GitFile.mk (contentAndHash.getD 0 "") (contentAndHash.getD 1 ""))

/-- Extensions accepted by the file-upload validator
(`ALLOWED_FILE_EXTENSIONS`). -/
def ALLOWED_FILE_EXTENSIONS : List String :=
  ["pdf", "png", "jpg", "gif", "tif", "bmp", "ico"]

/-- Extension of a file name (`getFileExtension`). -/
def getFileExtension (fileName : String) : Except E String :=
  let parts := jsSplit fileName '.'
  if parts.length > 1 then .ok (parts.getD (parts.length - 1) "")
  else .error (.mediaType "Unable to find file extension")

/-- Mime type for a file extension (`getMimeType`).  The source evaluates
`err(new MediaTypeError(...))` for extensions outside
`ALLOWED_FILE_EXTENSIONS` but discards the value without returning it, so
the function reaches the switch for every extension. -/
def getMimeType (fileExtension : String) : Except E String :=
  if fileExtension = "svg" then .ok "image/svg+xml"
  else if fileExtension = "ico" then .ok "image/vnd.microsoft.icon"
  else if fileExtension = "jpg" then .ok "image/jpeg"
  else if fileExtension = "tif" then .ok "image/tiff"
  else .ok ("image/" ++ fileExtension)

/-- Output of `readMediaFile`. -/
structure MediaFileOutput where
  name : String
  sha : String
  mediaUrl : String
  mediaPath : String
  type : String
  deriving DecidableEq, Repr

/-- Read a media file as a data URL (`readMediaFile`). -/
def readMediaFile (env : GitEnv) (cfg : Config)
    (siteName directoryName fileName : String) : GFS MediaFileOutput :=
  (read env cfg siteName (directoryName ++ "/" ++ fileName) .base64).andThen
    (fun file =>
      match getFileExtension fileName with
      | .error e => fail e
      | .ok ext =>
        match getMimeType ext with
        | .error e => fail e
        | .ok mime =>
          pur (MediaFileOutput.mk fileName file.sha
            ("data:" ++ mime ++ ";base64," ++ file.content)
            (directoryName ++ "/" ++ fileName) "file"))

/-- Pin the repository to a known commit (`updateRepoState`): validate the
SHA with `cat-file`, hard-reset to it, then force-push. -/
def updateRepoState (env : GitEnv) (cfg : Config)
    (repoName branchName sha : String) : GFS Unit :=
  let efsVolPath := getEfsVolPathFromBranch cfg branchName
  let path := efsVolPath ++ "/" ++ repoName
  (isValidGitRepo env cfg repoName branchName).andThen (fun isValid =>
    if !isValid then
      fail (.gitFs ("Folder \"" ++ repoName ++ "\" is not a valid Git repo"))
    else
      (ensureCorrectBranch env cfg repoName branchName).andThen (fun _ =>
        prim (.catFile path sha)
          (match env.catFile path sha with
           | .ok t => .ok t
           | .threw (.gitError _) =>
             .error (.badRequest "The provided SHA is invalid")
           | .threw _ => .error (.gitFs "An unknown error occurred")))
      |>.andThen (fun _ =>
        prim (.resetHard path sha)
          (match env.resetHard path sha with
           | .ok _ => .ok ()
           | .threw (.gitError _) =>
             .error (.gitFs ("Unable to update repo state to commit SHA " ++ sha))
           | .threw _ => .error (.gitFs "An unknown error occurred")))
      |>.andThen (fun _ => push env cfg repoName branchName true)
      |>.map (fun _ => ()))

/-! Effect-kind discriminators used to state trace properties. -/

/-- Whether an effect is a hard reset (the disk-rollback step). -/
def Effect.isResetHard : Effect → Bool
  | .resetHard _ _ => true
  | _ => false

/-- Whether an effect writes a file to disk. -/
def Effect.isWriteFile : Effect → Bool
  | .writeFile _ _ _ => true
  | _ => false

/-- Whether an effect removes a file or directory from disk. -/
def Effect.isRmFile : Effect → Bool
  | .rmFile _ _ => true
  | _ => false

/-- Whether an effect creates a directory. -/
def Effect.isMkdir : Effect → Bool
  | .mkdir _ _ => true
  | _ => false

/-- Whether an effect is a `git commit`. -/
def Effect.isGitCommit : Effect → Bool
  | .gitCommit _ _ => true
  | _ => false

/-- Whether an effect is a `git add`. -/
def Effect.isGitAdd : Effect → Bool
  | .gitAdd _ _ => true
  | _ => false

/-- Whether an effect is a `git push`. -/
def Effect.isPushCmd : Effect → Bool
  | .pushCmd _ _ => true
  | _ => false

/-- Whether an effect is a blob-hash lookup (`rev-parse HEAD:path`). -/
def Effect.isRevparseBlob : Effect → Bool
  | .revparseBlob _ _ => true
  | _ => false

/-- Whether an effect mutates the working tree on disk or the Git state:
file writes, removals, directory creation, renames, `git mv`, `git add`,
`git commit`, resets and cleans. -/
def Effect.isMutating : Effect → Bool
  | .writeFile _ _ _ => true
  | .rmFile _ _ => true
  | .mkdir _ _ => true
  | .renameFile _ _ => true
  | .gitMv _ _ _ => true
  | .gitAdd _ _ => true
  | .gitCommit _ _ => true
  | .resetHard _ _ => true
  | .clean _ => true
  | _ => false

/-! Combinator-level simp lemmas on literal structures. -/

namespace GFS

@[simp] theorem andThen_mk_ok (a : α) (t : List Effect) (f : α → GFS β) :
    GFS.andThen ⟨.ok a, t⟩ f = ⟨(f a).result, t ++ (f a).trace⟩ := rfl

@[simp] theorem andThen_mk_error (e : E) (t : List Effect) (f : α → GFS β) :
    GFS.andThen ⟨.error e, t⟩ f = ⟨.error e, t⟩ := rfl

@[simp] theorem orElse_mk_ok (a : α) (t : List Effect) (f : E → GFS α) :
    GFS.orElse ⟨.ok a, t⟩ f = ⟨.ok a, t⟩ := rfl

@[simp] theorem orElse_mk_error (e : E) (t : List Effect) (f : E → GFS α) :
    GFS.orElse ⟨.error e, t⟩ f = ⟨(f e).result, t ++ (f e).trace⟩ := rfl

@[simp] theorem map_mk (r : Except E α) (t : List Effect) (f : α → β) :
    GFS.map ⟨r, t⟩ f = ⟨r.map f, t⟩ := rfl

theorem andThen_assoc (m : GFS α) (f : α → GFS β) (g : β → GFS γ) :
    (m.andThen f).andThen g = m.andThen (fun a => (f a).andThen g) := by
  unfold GFS.andThen
  rcases hr : m.result with e | a
  · simp
  · rcases hf : (f a).result with e' | b <;> simp [hf, List.append_assoc]

theorem map_andThen (m : GFS α) (f : α → β) (g : β → GFS γ) :
    (m.map f).andThen g = m.andThen (fun a => g (f a)) := by
  unfold GFS.andThen GFS.map
  rcases hr : m.result with e | a <;> simp [hr, Except.map]

end GFS

/-! Characterisation of `rollbackGuard`. -/

/-- A needs-rollback failure of the guarded computation triggers the
rollback; when the reset succeeds the original message is surfaced as a
plain `GitFileSystemError`. -/
theorem rollbackGuard_needsRollback (env : GitEnv) (cfg : Config)
    (repoName oldStateSha branchName : String) (m : GFS α) (msg : String)
    (h : m.result = .error (.needsRollback msg))
    (hr : env.resetHardClean
      (getEfsVolPathFromBranch cfg branchName ++ "/" ++ repoName) oldStateSha = .ok ()) :
    rollbackGuard env cfg repoName oldStateSha branchName m =
      ⟨.error (.gitFs msg),
       m.trace ++
        [.resetHard (getEfsVolPathFromBranch cfg branchName ++ "/" ++ repoName) oldStateSha,
         .clean (getEfsVolPathFromBranch cfg branchName ++ "/" ++ repoName)]⟩ := by
  unfold rollbackGuard
  rw [GFS.orElse_error h]
  unfold rollback
  simp [hr, GFS.andThen, GFS.fail]

/-- A failure of any other class passes through the guard untouched: no
rollback effects are appended. -/
theorem rollbackGuard_plain (env : GitEnv) (cfg : Config)
    (repoName oldStateSha branchName : String) (m : GFS α) (e : E)
    (h : m.result = .error e) (hn : ∀ msg, e ≠ .needsRollback msg) :
    rollbackGuard env cfg repoName oldStateSha branchName m =
      ⟨.error e, m.trace⟩ := by
  unfold rollbackGuard
  rw [GFS.orElse_error h]
  match e, hn with
  | .notFound m', _ => simp [GFS.fail]
  | .conflict m', _ => simp [GFS.fail]
  | .badRequest m', _ => simp [GFS.fail]
  | .gitFs m', _ => simp [GFS.fail]
  | .mediaType m', _ => simp [GFS.fail]
  | .boolErr b', _ => simp [GFS.fail]
  | .needsRollback m', hn => exact absurd rfl (hn m')

/-- A success passes through the guard untouched. -/
theorem rollbackGuard_ok (env : GitEnv) (cfg : Config)
    (repoName oldStateSha branchName : String) (m : GFS α) (a : α)
    (h : m.result = .ok a) :
    rollbackGuard env cfg repoName oldStateSha branchName m =
      ⟨.ok a, m.trace⟩ := by
  unfold rollbackGuard
  exact GFS.orElse_ok h

theorem rollback_result (env : GitEnv) (cfg : Config)
    (repoName commitSha branchName : String) :
    (rollback env cfg repoName commitSha branchName).result =
      (match env.resetHardClean
          (getEfsVolPathFromBranch cfg branchName ++ "/" ++ repoName) commitSha with
       | .ok _ => .ok true
       | .threw (.gitError _) =>
         .error (.gitFs "Unable to rollback to original state")
       | .threw _ => .error (.gitFs "An unknown error occurred")) := rfl

/-- The rollback routine itself only fails with `GitFileSystemError`. -/
theorem rollback_error_gitFs (env : GitEnv) (cfg : Config)
    (repoName commitSha branchName : String) (e : E)
    (h : (rollback env cfg repoName commitSha branchName).result = .error e) :
    ∃ m, e = .gitFs m := by
  rw [rollback_result] at h
  rcases hrc : env.resetHardClean
      (getEfsVolPathFromBranch cfg branchName ++ "/" ++ repoName) commitSha with u | t <;>
    rw [hrc] at h
  · simp at h
  · match t with
    | .gitError m => simp at h; exact ⟨_, h.symm⟩
    | .jsError m => simp at h; exact ⟨_, h.symm⟩
    | .nonError => simp at h; exact ⟨_, h.symm⟩

/-- The needs-rollback marker never escapes the guard. -/
theorem rollbackGuard_no_needsRollback (env : GitEnv) (cfg : Config)
    (repoName oldStateSha branchName : String) (m : GFS α) (e : E)
    (h : (rollbackGuard env cfg repoName oldStateSha branchName m).result = .error e) :
    ∀ msg, e ≠ .needsRollback msg := by
  unfold rollbackGuard GFS.orElse at h
  rcases hr : m.result with e' | a <;> rw [hr] at h <;> simp at h
  match e', h with
  | .needsRollback m', h =>
    simp only at h
    unfold GFS.andThen at h
    rcases hr2 : (rollback env cfg repoName oldStateSha branchName).result with e2 | a2 <;>
      rw [hr2] at h <;> simp [GFS.fail] at h
    · obtain ⟨mm, rfl⟩ := rollback_error_gitFs env cfg repoName oldStateSha branchName e2 hr2
      subst h
      simp
    · subst h
      simp
  | .notFound m', h => simp [GFS.fail] at h; subst h; simp
  | .conflict m', h => simp [GFS.fail] at h; subst h; simp
  | .badRequest m', h => simp [GFS.fail] at h; subst h; simp
  | .gitFs m', h => simp [GFS.fail] at h; subst h; simp
  | .mediaType m', h => simp [GFS.fail] at h; subst h; simp
  | .boolErr b', h => simp [GFS.fail] at h; subst h; simp

/-! Trace lemmas: which effect kinds each subroutine can emit. -/

theorem traceAll_getFilePathStats {p : Effect → Bool} (env : GitEnv)
    (cfg : Config) (repoName filePath : String) (isStaging : Bool)
    (hstat : ∀ s, p (.stat s) = true) :
    TraceAll p (getFilePathStats env cfg repoName filePath isStaging) := by
  unfold getFilePathStats
  exact traceAll_prim (hstat _) _

theorem traceAll_isGitInitialized {p : Effect → Bool} (env : GitEnv)
    (cfg : Config) (repoName : String) (isStaging : Bool)
    (hrepo : ∀ s, p (.checkIsRepo s) = true) :
    TraceAll p (isGitInitialized env cfg repoName isStaging) := by
  unfold isGitInitialized
  exact traceAll_prim (hrepo _) _

theorem traceAll_isOriginRemoteCorrect {p : Effect → Bool} (env : GitEnv)
    (cfg : Config) (repoName : String) (isStaging : Bool)
    (hurl : ∀ s, p (.getRemoteUrl s) = true) :
    TraceAll p (isOriginRemoteCorrect env cfg repoName isStaging) := by
  unfold isOriginRemoteCorrect
  exact traceAll_map (traceAll_prim (hurl _) _) _

theorem traceAll_isValidGitRepo {p : Effect → Bool} (env : GitEnv)
    (cfg : Config) (repoName branchName : String)
    (hstat : ∀ s, p (.stat s) = true)
    (hrepo : ∀ s, p (.checkIsRepo s) = true)
    (hurl : ∀ s, p (.getRemoteUrl s) = true) :
    TraceAll p (isValidGitRepo env cfg repoName branchName) := by
  unfold isValidGitRepo
  apply traceAll_orElse
  · apply traceAll_andThen
    · apply traceAll_andThen
      · apply traceAll_andThen
        · apply traceAll_orElse
          · apply traceAll_andThen
            · exact traceAll_getFilePathStats env cfg _ _ _ hstat
            · intro a
              split
              · exact traceAll_fail _ _
              · exact traceAll_pur _ _
          · intro e
            cases e <;> exact traceAll_fail _ _
        · intro a
          exact traceAll_isGitInitialized env cfg _ _ hrepo
      · intro a
        split
        · exact traceAll_fail _ _
        · exact traceAll_pur _ _
    · intro a
      apply traceAll_andThen
      · exact traceAll_isOriginRemoteCorrect env cfg _ _ hurl
      · intro b
        split
        · exact traceAll_fail _ _
        · exact traceAll_pur _ _
  · intro e
    cases e <;>
      first
        | exact traceAll_fail _ _
        | exact traceAll_pur _ _

theorem traceAll_ensureCorrectBranch {p : Effect → Bool} (env : GitEnv)
    (cfg : Config) (repoName branchName : String)
    (hcur : ∀ s, p (.currentBranch s) = true)
    (hco : ∀ s b, p (.checkout s b) = true) :
    TraceAll p (ensureCorrectBranch env cfg repoName branchName) := by
  unfold ensureCorrectBranch
  apply traceAll_andThen (traceAll_prim (hcur _) _)
  intro a
  split
  · exact traceAll_prim (hco _ _) _
  · exact traceAll_pur _ _

theorem traceAll_getGitBlobHash {p : Effect → Bool} (env : GitEnv)
    (cfg : Config) (repoName filePath : String) (isStaging : Bool)
    (hblob : ∀ s f, p (.revparseBlob s f) = true) :
    TraceAll p (getGitBlobHash env cfg repoName filePath isStaging) := by
  unfold getGitBlobHash
  exact traceAll_prim (hblob _ _) _

theorem traceAll_getGitLog {p : Effect → Bool} (env : GitEnv) (cfg : Config)
    (repoName branchName : String)
    (hlog : ∀ s r, p (.gitLog s r) = true) :
    TraceAll p (getGitLog env cfg repoName branchName) := by
  unfold getGitLog
  exact traceAll_prim (hlog _ _) _

theorem traceAll_getLatestCommitOfBranch {p : Effect → Bool} (env : GitEnv)
    (cfg : Config) (repoName branchName : String)
    (hlog : ∀ s r, p (.gitLog s r) = true) :
    TraceAll p (getLatestCommitOfBranch env cfg repoName branchName) := by
  unfold getLatestCommitOfBranch
  apply traceAll_andThen
  · apply traceAll_orElse (traceAll_getGitLog env cfg _ _ hlog)
    intro _
    exact traceAll_getGitLog env cfg _ _ hlog
  · intro a
    rcases a with ⟨latest⟩
    match latest with
    | some c => exact traceAll_pur _ _
    | none => exact traceAll_fail _ _

theorem traceAll_commit {p : Effect → Bool} (env : GitEnv) (cfg : Config)
    (repoName : String) (pathSpec : List String)
    (userId message branchName : String) (skipGitAdd : Bool)
    (hstat : ∀ s, p (.stat s) = true)
    (hrepo : ∀ s, p (.checkIsRepo s) = true)
    (hurl : ∀ s, p (.getRemoteUrl s) = true)
    (hcur : ∀ s, p (.currentBranch s) = true)
    (hco : ∀ s b, p (.checkout s b) = true)
    (hadd : ∀ s l, p (.gitAdd s l) = true)
    (hcommit : ∀ s m, p (.gitCommit s m) = true) :
    TraceAll p (commit env cfg repoName pathSpec userId message branchName
      skipGitAdd) := by
  unfold commit
  apply traceAll_andThen
    (traceAll_isValidGitRepo env cfg _ _ hstat hrepo hurl)
  intro isValid
  split
  · exact traceAll_fail _ _
  split
  · exact traceAll_fail _ _
  apply traceAll_andThen
  · apply traceAll_andThen
      (traceAll_ensureCorrectBranch env cfg _ _ hcur hco)
    intro _
    split
    · exact traceAll_pur _ _
    · exact traceAll_prim (hadd _ _) _
  · intro _
    exact traceAll_prim (hcommit _ _) _

theorem traceAll_rollbackGuard {p : Effect → Bool} (env : GitEnv)
    (cfg : Config) (repoName oldStateSha branchName : String) {m : GFS α}
    (hm : TraceAll p m)
    (hreset : ∀ s sha, p (.resetHard s sha) = true)
    (hclean : ∀ s, p (.clean s) = true) :
    TraceAll p (rollbackGuard env cfg repoName oldStateSha branchName m) := by
  unfold rollbackGuard
  apply traceAll_orElse hm
  intro e
  match e with
  | .needsRollback msg =>
    apply traceAll_andThen
    · intro x hx
      unfold rollback at hx
      simp only [List.mem_cons, List.mem_singleton] at hx
      rcases hx with rfl | rfl | hx
      · exact hreset _ _
      · exact hclean _
      · simp at hx
    · intro _
      exact traceAll_fail _ _
  | .notFound m' => exact traceAll_fail _ _
  | .conflict m' => exact traceAll_fail _ _
  | .badRequest m' => exact traceAll_fail _ _
  | .gitFs m' => exact traceAll_fail _ _
  | .mediaType m' => exact traceAll_fail _ _
  | .boolErr b' => exact traceAll_fail _ _

theorem traceAll_createCore {p : Effect → Bool} (env : GitEnv) (cfg : Config)
    (repoName userId content directoryName fileName : String)
    (encoding : Encoding) (branchName : String)
    (hstat : ∀ s, p (.stat s) = true)
    (hrepo : ∀ s, p (.checkIsRepo s) = true)
    (hurl : ∀ s, p (.getRemoteUrl s) = true)
    (hcur : ∀ s, p (.currentBranch s) = true)
    (hco : ∀ s b, p (.checkout s b) = true)
    (hadd : ∀ s l, p (.gitAdd s l) = true)
    (hcommit : ∀ s m, p (.gitCommit s m) = true)
    (hmkdir : ∀ s r, p (.mkdir s r) = true)
    (hwrite : ∀ s c e, p (.writeFile s c e) = true) :
    TraceAll p (createCore env cfg repoName userId content directoryName
      fileName encoding branchName) := by
  unfold createCore
  apply traceAll_map
  apply traceAll_andThen
  · apply traceAll_andThen
    · apply traceAll_orElse
      · apply traceAll_andThen
        · apply traceAll_andThen
          · apply traceAll_orElse
            · apply traceAll_andThen
                (traceAll_getFilePathStats env cfg _ _ _ hstat)
              intro a
              split
              · exact traceAll_pur _ _
              · exact traceAll_fail _ _
            · intro e
              cases e <;>
                first
                  | exact traceAll_map (traceAll_prim (hmkdir _ _) _) _
                  | exact traceAll_fail _ _
          · intro _
            exact traceAll_getFilePathStats env cfg _ _ _ hstat
        · intro a
          split
          · exact traceAll_fail _ _
          · exact traceAll_pur _ _
      · intro e
        cases e <;>
          first
            | exact traceAll_pur _ _
            | exact traceAll_fail _ _
    · intro _
      exact traceAll_prim (hwrite _ _ _) _
  · intro _
    exact traceAll_commit env cfg _ _ _ _ _ _ hstat hrepo hurl hcur hco hadd
      hcommit

theorem traceAll_updateCore {p : Effect → Bool} (env : GitEnv) (cfg : Config)
    (repoName filePath fileContent oldSha userId branchName : String)
    (hstat : ∀ s, p (.stat s) = true)
    (hrepo : ∀ s, p (.checkIsRepo s) = true)
    (hurl : ∀ s, p (.getRemoteUrl s) = true)
    (hcur : ∀ s, p (.currentBranch s) = true)
    (hco : ∀ s b, p (.checkout s b) = true)
    (hadd : ∀ s l, p (.gitAdd s l) = true)
    (hcommit : ∀ s m, p (.gitCommit s m) = true)
    (hblob : ∀ s f, p (.revparseBlob s f) = true)
    (hwrite : ∀ s c e, p (.writeFile s c e) = true) :
    TraceAll p (updateCore env cfg repoName filePath fileContent oldSha userId
      branchName) := by
  unfold updateCore
  apply traceAll_andThen
  · apply traceAll_andThen
    · apply traceAll_andThen
      · apply traceAll_andThen
          (traceAll_getFilePathStats env cfg _ _ _ hstat)
        intro a
        split
        · exact traceAll_fail _ _
        · exact traceAll_pur _ _
      · intro _
        apply traceAll_andThen (traceAll_getGitBlobHash env cfg _ _ _ hblob)
        intro sha
        split
        · exact traceAll_fail _ _
        · exact traceAll_pur _ _
    · intro _
      exact traceAll_prim (hwrite _ _ _) _
  · intro _
    exact traceAll_commit env cfg _ _ _ _ _ _ hstat hrepo hurl hcur hco hadd
      hcommit

theorem traceAll_deleteCore {p : Effect → Bool} (env : GitEnv) (cfg : Config)
    (repoName path oldSha userId : String) (isDir : Bool)
    (branchName : String)
    (hstat : ∀ s, p (.stat s) = true)
    (hrepo : ∀ s, p (.checkIsRepo s) = true)
    (hurl : ∀ s, p (.getRemoteUrl s) = true)
    (hcur : ∀ s, p (.currentBranch s) = true)
    (hco : ∀ s b, p (.checkout s b) = true)
    (hadd : ∀ s l, p (.gitAdd s l) = true)
    (hcommit : ∀ s m, p (.gitCommit s m) = true)
    (hblob : isDir = false → ∀ s f, p (.revparseBlob s f) = true)
    (hrm : ∀ s r, p (.rmFile s r) = true) :
    TraceAll p (deleteCore env cfg repoName path oldSha userId isDir
      branchName) := by
  unfold deleteCore
  apply traceAll_andThen
  · apply traceAll_andThen
    · apply traceAll_andThen
      · apply traceAll_andThen
          (traceAll_getFilePathStats env cfg _ _ _ hstat)
        intro a
        split
        · exact traceAll_fail _ _
        split
        · exact traceAll_fail _ _
        · exact traceAll_pur _ _
      · intro _
        split
        · exact traceAll_pur _ _
        · next hdir =>
          apply traceAll_map
          apply traceAll_andThen
            (traceAll_getGitBlobHash env cfg _ _ _
              (hblob (Bool.eq_false_iff.mpr hdir)))
          intro sha
          split
          · exact traceAll_fail _ _
          · exact traceAll_pur _ _
    · intro _
      exact traceAll_prim (hrm _ _) _
  · intro _
    exact traceAll_commit env cfg _ _ _ _ _ _ hstat hrepo hurl hcur hco hadd
      hcommit

theorem traceAll_renameCore {p : Effect → Bool} (env : GitEnv) (cfg : Config)
    (repoName oldPath newPath userId branchName : String)
    (message : Option String)
    (hstat : ∀ s, p (.stat s) = true)
    (hrepo : ∀ s, p (.checkIsRepo s) = true)
    (hurl : ∀ s, p (.getRemoteUrl s) = true)
    (hcur : ∀ s, p (.currentBranch s) = true)
    (hco : ∀ s b, p (.checkout s b) = true)
    (hadd : ∀ s l, p (.gitAdd s l) = true)
    (hcommit : ∀ s m, p (.gitCommit s m) = true)
    (hmv : ∀ s a b, p (.gitMv s a b) = true) :
    TraceAll p (renameCore env cfg repoName oldPath newPath userId branchName
      message) := by
  unfold renameCore
  apply traceAll_andThen
  · apply traceAll_andThen
    · apply traceAll_andThen
        (traceAll_getFilePathStats env cfg _ _ _ hstat)
      intro _
      apply traceAll_orElse
      · apply traceAll_map
        apply traceAll_andThen
          (traceAll_getFilePathStats env cfg _ _ _ hstat)
        intro _
        exact traceAll_fail _ _
      · intro e
        cases e <;>
          first
            | exact traceAll_pur _ _
            | exact traceAll_fail _ _
    · intro _
      exact traceAll_prim (hmv _ _ _) _
  · intro _
    exact traceAll_commit env cfg _ _ _ _ _ _ hstat hrepo hurl hcur hco hadd
      hcommit

theorem traceAll_moveCore {p : Effect → Bool} (env : GitEnv) (cfg : Config)
    (repoName oldPath newPath userId : String) (targetFiles : List String)
    (branchName : String) (message : Option String)
    (hstat : ∀ s, p (.stat s) = true)
    (hrepo : ∀ s, p (.checkIsRepo s) = true)
    (hurl : ∀ s, p (.getRemoteUrl s) = true)
    (hcur : ∀ s, p (.currentBranch s) = true)
    (hco : ∀ s b, p (.checkout s b) = true)
    (hadd : ∀ s l, p (.gitAdd s l) = true)
    (hcommit : ∀ s m, p (.gitCommit s m) = true)
    (hmkdir : ∀ s r, p (.mkdir s r) = true)
    (hren : ∀ a b, p (.renameFile a b) = true) :
    TraceAll p (moveCore env cfg repoName oldPath newPath userId targetFiles
      branchName message) := by
  unfold moveCore
  apply traceAll_andThen
  · apply traceAll_andThen
    · apply traceAll_andThen
      · apply traceAll_andThen
          (traceAll_getFilePathStats env cfg _ _ _ hstat)
        intro a
        split
        · exact traceAll_fail _ _
        · exact traceAll_pur _ _
      · intro _
        exact traceAll_prim (hmkdir _ _) _
    · intro _
      apply traceAll_combineAll
      intro m hm
      simp only [List.mem_map] at hm
      obtain ⟨targetFile, htf, rfl⟩ := hm
      apply traceAll_andThen
      · apply traceAll_orElse
        · apply traceAll_map
          apply traceAll_andThen
            (traceAll_getFilePathStats env cfg _ _ _ hstat)
          intro _
          exact traceAll_fail _ _
        · intro e
          cases e <;>
            first
              | exact traceAll_pur _ _
              | exact traceAll_fail _ _
      · intro _
        exact traceAll_prim (hren _ _) _
  · intro _
    exact traceAll_commit env cfg _ _ _ _ _ _ hstat hrepo hurl hcur hco hadd
      hcommit

/-! Equation lemmas exposing each primitive-backed subroutine as an
explicit structure, and scenario lemmas under pinned oracles. -/

theorem getFilePathStats_eq (env : GitEnv) (cfg : Config)
    (repoName filePath : String) (isStaging : Bool) :
    getFilePathStats env cfg repoName filePath isStaging =
      ⟨(match env.stat
          (getEfsVolPath cfg isStaging ++ "/" ++ repoName ++ "/" ++ filePath) with
        | .ok stats => .ok stats
        | .threw t =>
          if t.isErrorWith "ENOENT" then
            .error (.notFound "File/Directory does not exist")
          else if t.isError then
            .error (.gitFs "Unable to read file/directory")
          else .error (.gitFs "An unknown error occurred")),
       [.stat (getEfsVolPath cfg isStaging ++ "/" ++ repoName ++ "/" ++ filePath)]⟩ := rfl

theorem isGitInitialized_eq (env : GitEnv) (cfg : Config) (repoName : String)
    (isStaging : Bool) :
    isGitInitialized env cfg repoName isStaging =
      ⟨(match env.checkIsRepo (getEfsVolPath cfg isStaging ++ "/" ++ repoName) with
        | .ok b => .ok b
        | .threw (.gitError _) =>
          .error (.gitFs "Unable to determine if directory is Git repo")
        | .threw _ => .error (.gitFs "An unknown error occurred")),
       [.checkIsRepo (getEfsVolPath cfg isStaging ++ "/" ++ repoName)]⟩ := rfl

theorem isOriginRemoteCorrect_eq (env : GitEnv) (cfg : Config)
    (repoName : String) (isStaging : Bool) :
    isOriginRemoteCorrect env cfg repoName isStaging =
      ⟨((match env.getRemoteUrl (getEfsVolPath cfg isStaging ++ "/" ++ repoName) with
         | .ok url => .ok url
         | .threw (.gitError _) =>
           .error (.gitFs "Unable to determine origin remote URL")
         | .threw _ => .error (.gitFs "An unknown error occurred") :
           Except E String)).map
          (fun remoteUrl =>
            remoteUrl ≠ "" &&
            jsTrim remoteUrl =
              ("git@github.com:" ++ cfg.orgName ++ "/" ++ repoName ++ ".git")),
       [.getRemoteUrl (getEfsVolPath cfg isStaging ++ "/" ++ repoName)]⟩ := rfl

theorem getGitBlobHash_eq (env : GitEnv) (cfg : Config)
    (repoName filePath : String) (isStaging : Bool) :
    getGitBlobHash env cfg repoName filePath isStaging =
      ⟨(match env.revparseBlob (getEfsVolPath cfg isStaging ++ "/" ++ repoName)
          filePath with
        | .ok s => .ok s
        | .threw (.gitError _) =>
          .error (.gitFs "Unable to determine Git blob hash")
        | .threw _ => .error (.gitFs "An unknown error occurred")),
       [.revparseBlob (getEfsVolPath cfg isStaging ++ "/" ++ repoName) filePath]⟩ := rfl

theorem getGitLog_eq (env : GitEnv) (cfg : Config)
    (repoName branchName : String) :
    getGitLog env cfg repoName branchName =
      ⟨(match env.gitLog (getEfsVolPathFromBranch cfg branchName ++ "/" ++ repoName)
          branchName with
        | .ok l => .ok l
        | .threw (.gitError _) =>
          .error (.gitFs "Unable to retrieve branch log info from disk")
        | .threw _ => .error (.gitFs "An unknown error occurred")),
       [.gitLog (getEfsVolPathFromBranch cfg branchName ++ "/" ++ repoName)
         branchName]⟩ := rfl

theorem pushPrim_eq (env : GitEnv) (path : String) (args : List String) :
    pushPrim env path args =
      ⟨(match env.pushCmd path args with
        | .ok _ => .ok ()
        | .threw (.gitError _) =>
          .error (.gitFs "Unable to push latest changes of repo")
        | .threw _ => .error (.gitFs "An unknown error occurred")),
       [.pushCmd path args]⟩ := rfl

/-- Scenario: the first `git log` succeeds with a latest commit. -/
theorem getLatestCommitOfBranch_ok (env : GitEnv) (cfg : Config)
    (repoName branchName : String) {flds : DefaultLogFields}
    (hlog : env.gitLog (getEfsVolPathFromBranch cfg branchName ++ "/" ++ repoName)
      branchName = .ok ⟨some flds⟩) :
    getLatestCommitOfBranch env cfg repoName branchName =
      ⟨.ok ⟨flds.author_name, flds.author_email, flds.date, flds.message,
        flds.hash⟩,
       [.gitLog (getEfsVolPathFromBranch cfg branchName ++ "/" ++ repoName)
         branchName]⟩ := by
  unfold getLatestCommitOfBranch
  simp only [getGitLog_eq, hlog]
  simp [GFS.orElse, GFS.andThen, GFS.pur]

/-- Scenario: every check of `isValidGitRepo` passes. -/
theorem isValidGitRepo_true (env : GitEnv) (cfg : Config)
    (repoName branchName : String) {s : FileStats} {url : String}
    (hstat : env.stat (getEfsVolPath cfg (isStagingOf cfg branchName) ++
      "/" ++ repoName ++ "/") = .ok s)
    (hdir : s.isDirectory = true)
    (hrepo : env.checkIsRepo (getEfsVolPath cfg true ++ "/" ++ repoName) = .ok true)
    (hurl : env.getRemoteUrl (getEfsVolPath cfg true ++ "/" ++ repoName) = .ok url)
    (hu1 : url ≠ "")
    (hu2 : jsTrim url = "git@github.com:" ++ cfg.orgName ++ "/" ++ repoName ++ ".git") :
    isValidGitRepo env cfg repoName branchName =
      ⟨.ok true,
       [.stat (getEfsVolPath cfg (isStagingOf cfg branchName) ++
          "/" ++ repoName ++ "/"),
        .checkIsRepo (getEfsVolPath cfg true ++ "/" ++ repoName),
        .getRemoteUrl (getEfsVolPath cfg true ++ "/" ++ repoName)]⟩ := by
  unfold isValidGitRepo
  simp [getFilePathStats_eq, isGitInitialized_eq, isOriginRemoteCorrect_eq,
    hstat, hrepo, hurl, hdir, hu1, hu2, Except.map, GFS.orElse, GFS.andThen,
    GFS.map, GFS.pur, GFS.fail]

/-- Scenario: the working tree is already on the requested branch. -/
theorem ensureCorrectBranch_same (env : GitEnv) (cfg : Config)
    (repoName branchName : String)
    (hcur : env.currentBranch
      (getEfsVolPathFromBranch cfg branchName ++ "/" ++ repoName) = .ok branchName) :
    ensureCorrectBranch env cfg repoName branchName =
      ⟨.ok true,
       [.currentBranch (getEfsVolPathFromBranch cfg branchName ++ "/" ++ repoName)]⟩ := by
  unfold ensureCorrectBranch
  simp only [hcur]
  simp [GFS.andThen, GFS.prim, GFS.pur]

/-! Decomposition of the mutating operations into the rollback-anchor
prefix and the guarded core. -/

/-- Rollback-anchor step of `create`: fetch the latest commit SHA and
reject an empty one. -/
def createPre (env : GitEnv) (cfg : Config)
    (repoName branchName : String) : GFS String :=
  (getLatestCommitOfBranch env cfg repoName branchName).andThen
    (fun latestCommit =>
      if latestCommit.sha = "" then fail (.gitFs "An unknown error occurred")
      else pur latestCommit.sha)

/-- Rollback-anchor step of `delete`. -/
def deletePre (env : GitEnv) (cfg : Config)
    (repoName branchName : String) : GFS String :=
  (getLatestCommitOfBranch env cfg repoName branchName).andThen
    (fun latestCommit =>
      if latestCommit.sha = "" then
        fail (.gitFs ("Unable to find latest commit of repo: " ++ repoName ++
          " on branch \"" ++ branchName ++ "\""))
      else pur latestCommit.sha)

/-- Rollback-anchor step of `update`, `renameSinglePath` and `moveFiles`:
the latest commit SHA, taken without an emptiness check. -/
def commitShaPre (env : GitEnv) (cfg : Config)
    (repoName branchName : String) : GFS String :=
  (getLatestCommitOfBranch env cfg repoName branchName).map (fun l => l.sha)

theorem create_decomp (env : GitEnv) (cfg : Config)
    (repoName userId content directoryName fileName : String)
    (encoding : Encoding) (branchName : String) :
    create env cfg repoName userId content directoryName fileName encoding
      branchName =
      (createPre env cfg repoName branchName).andThen (fun oldStateSha =>
        rollbackGuard env cfg repoName oldStateSha branchName
          (createCore env cfg repoName userId content directoryName fileName
            encoding branchName)) := by
  unfold create createPre
  rw [GFS.andThen_assoc]

theorem update_decomp (env : GitEnv) (cfg : Config)
    (repoName filePath fileContent oldSha userId branchName : String) :
    update env cfg repoName filePath fileContent oldSha userId branchName =
      (commitShaPre env cfg repoName branchName).andThen (fun oldStateSha =>
        rollbackGuard env cfg repoName oldStateSha branchName
          (updateCore env cfg repoName filePath fileContent oldSha userId
            branchName)) := by
  unfold update commitShaPre
  rw [GFS.map_andThen]

theorem delete_decomp (env : GitEnv) (cfg : Config)
    (repoName path oldSha userId : String) (isDir : Bool)
    (branchName : String) :
    delete env cfg repoName path oldSha userId isDir branchName =
      (deletePre env cfg repoName branchName).andThen (fun oldStateSha =>
        rollbackGuard env cfg repoName oldStateSha branchName
          (deleteCore env cfg repoName path oldSha userId isDir branchName)) := by
  unfold delete deletePre
  rw [GFS.andThen_assoc]

theorem renameSinglePath_decomp (env : GitEnv) (cfg : Config)
    (repoName oldPath newPath userId branchName : String)
    (message : Option String) :
    renameSinglePath env cfg repoName oldPath newPath userId branchName
      message =
      (commitShaPre env cfg repoName branchName).andThen (fun oldStateSha =>
        rollbackGuard env cfg repoName oldStateSha branchName
          (renameCore env cfg repoName oldPath newPath userId branchName
            message)) := by
  unfold renameSinglePath commitShaPre
  rw [GFS.map_andThen]

theorem moveFiles_decomp (env : GitEnv) (cfg : Config)
    (repoName oldPath newPath userId : String) (targetFiles : List String)
    (branchName : String) (message : Option String) :
    moveFiles env cfg repoName oldPath newPath userId targetFiles branchName
      message =
      (commitShaPre env cfg repoName branchName).andThen (fun oldStateSha =>
        rollbackGuard env cfg repoName oldStateSha branchName
          (moveCore env cfg repoName oldPath newPath userId targetFiles
            branchName message)) := by
  unfold moveFiles commitShaPre
  rw [GFS.map_andThen]

/-! Error classification of the anchor prefixes. -/

theorem getGitLog_error_gitFs (env : GitEnv) (cfg : Config)
    (repoName branchName : String) (e : E)
    (h : (getGitLog env cfg repoName branchName).result = .error e) :
    ∃ m, e = .gitFs m := by
  rw [getGitLog_eq] at h
  simp only at h
  rcases hl : env.gitLog (getEfsVolPathFromBranch cfg branchName ++ "/" ++ repoName)
      branchName with l | t <;> rw [hl] at h
  · simp at h
  · match t with
    | .gitError m => simp at h; exact ⟨_, h.symm⟩
    | .jsError m => simp at h; exact ⟨_, h.symm⟩
    | .nonError => simp at h; exact ⟨_, h.symm⟩

theorem getLatestCommitOfBranch_error_gitFs (env : GitEnv) (cfg : Config)
    (repoName branchName : String) (e : E)
    (h : (getLatestCommitOfBranch env cfg repoName branchName).result = .error e) :
    ∃ m, e = .gitFs m := by
  unfold getLatestCommitOfBranch at h
  unfold GFS.andThen at h
  rcases hr : ((getGitLog env cfg repoName branchName).orElse (fun _ =>
      getGitLog env cfg repoName ("origin/" ++ branchName))).result with e' | a
  · rw [hr] at h
    simp at h
    subst h
    unfold GFS.orElse at hr
    rcases h1 : (getGitLog env cfg repoName branchName).result with e1 | a1 <;>
      rw [h1] at hr <;> simp at hr
    exact getGitLog_error_gitFs env cfg repoName ("origin/" ++ branchName) e' hr
  · rw [hr] at h
    simp at h
    rcases a with ⟨latest⟩
    match latest with
    | some c => simp [GFS.pur] at h
    | none =>
      simp [GFS.fail] at h
      exact ⟨_, h.symm⟩

theorem createPre_error_gitFs (env : GitEnv) (cfg : Config)
    (repoName branchName : String) (e : E)
    (h : (createPre env cfg repoName branchName).result = .error e) :
    ∃ m, e = .gitFs m := by
  unfold createPre GFS.andThen at h
  rcases hr : (getLatestCommitOfBranch env cfg repoName branchName).result with e' | a <;>
    rw [hr] at h
  · simp at h
    subst h
    exact getLatestCommitOfBranch_error_gitFs env cfg repoName branchName _ hr
  · simp only at h
    split at h
    · simp [GFS.fail] at h
      exact ⟨_, h.symm⟩
    · simp [GFS.pur] at h

theorem deletePre_error_gitFs (env : GitEnv) (cfg : Config)
    (repoName branchName : String) (e : E)
    (h : (deletePre env cfg repoName branchName).result = .error e) :
    ∃ m, e = .gitFs m := by
  unfold deletePre GFS.andThen at h
  rcases hr : (getLatestCommitOfBranch env cfg repoName branchName).result with e' | a <;>
    rw [hr] at h
  · simp at h
    subst h
    exact getLatestCommitOfBranch_error_gitFs env cfg repoName branchName _ hr
  · simp only at h
    split at h
    · simp [GFS.fail] at h
      exact ⟨_, h.symm⟩
    · simp [GFS.pur] at h

theorem commitShaPre_error_gitFs (env : GitEnv) (cfg : Config)
    (repoName branchName : String) (e : E)
    (h : (commitShaPre env cfg repoName branchName).result = .error e) :
    ∃ m, e = .gitFs m := by
  unfold commitShaPre GFS.map at h
  simp only at h
  rcases hr : (getLatestCommitOfBranch env cfg repoName branchName).result with e' | a <;>
    rw [hr] at h <;> simp [Except.map] at h
  subst h
  exact getLatestCommitOfBranch_error_gitFs env cfg repoName branchName _ hr

/-! Generic behaviour of an anchored, rollback-guarded operation. -/

theorem mutGuard_no_needsRollback (env : GitEnv) (cfg : Config)
    (repoName branchName : String) (pre : GFS String) (core : String → GFS α)
    (hpreErr : ∀ e, pre.result = .error e → ∃ m, e = .gitFs m) :
    ∀ e, (pre.andThen (fun old =>
        rollbackGuard env cfg repoName old branchName (core old))).result =
        .error e →
      ∀ m, e ≠ .needsRollback m := by
  intro e h
  unfold GFS.andThen at h
  rcases hr : pre.result with e' | old <;> rw [hr] at h <;> simp at h
  · subst h
    obtain ⟨m, rfl⟩ := hpreErr _ hr
    simp
  · exact rollbackGuard_no_needsRollback env cfg repoName old branchName _ _ h

theorem mutGuard_rollback_branch (env : GitEnv) (cfg : Config)
    (repoName branchName : String) (pre : GFS String) (core : String → GFS α)
    (old msg : String) (hpre : pre.result = .ok old)
    (hcore : (core old).result = .error (.needsRollback msg))
    (hreset : env.resetHardClean
      (getEfsVolPathFromBranch cfg branchName ++ "/" ++ repoName) old = .ok ()) :
    pre.andThen (fun o =>
        rollbackGuard env cfg repoName o branchName (core o)) =
      ⟨.error (.gitFs msg),
       pre.trace ++ ((core old).trace ++
        [.resetHard (getEfsVolPathFromBranch cfg branchName ++ "/" ++ repoName) old,
         .clean (getEfsVolPathFromBranch cfg branchName ++ "/" ++ repoName)])⟩ := by
  rw [GFS.andThen_ok hpre,
    rollbackGuard_needsRollback env cfg repoName old branchName _ msg hcore hreset]

theorem mutGuard_plain_branch (env : GitEnv) (cfg : Config)
    (repoName branchName : String) (pre : GFS String) (core : String → GFS α)
    (old : String) (e : E) (hpre : pre.result = .ok old)
    (hcore : (core old).result = .error e)
    (hn : ∀ m, e ≠ .needsRollback m) :
    pre.andThen (fun o =>
        rollbackGuard env cfg repoName o branchName (core o)) =
      ⟨.error e, pre.trace ++ (core old).trace⟩ := by
  rw [GFS.andThen_ok hpre,
    rollbackGuard_plain env cfg repoName old branchName _ e hcore hn]

theorem mutGuard_ok_branch (env : GitEnv) (cfg : Config)
    (repoName branchName : String) (pre : GFS String) (core : String → GFS α)
    (old : String) (a : α) (hpre : pre.result = .ok old)
    (hcore : (core old).result = .ok a) :
    pre.andThen (fun o =>
        rollbackGuard env cfg repoName o branchName (core o)) =
      ⟨.ok a, pre.trace ++ (core old).trace⟩ := by
  rw [GFS.andThen_ok hpre,
    rollbackGuard_ok env cfg repoName old branchName _ a hcore]

/-! Trace lemmas for the anchor prefixes. -/

theorem traceAll_createPre {p : Effect → Bool} (env : GitEnv) (cfg : Config)
    (repoName branchName : String)
    (hlog : ∀ s r, p (.gitLog s r) = true) :
    TraceAll p (createPre env cfg repoName branchName) := by
  unfold createPre
  apply traceAll_andThen
    (traceAll_getLatestCommitOfBranch env cfg _ _ hlog)
  intro l
  split
  · exact traceAll_fail _ _
  · exact traceAll_pur _ _

theorem traceAll_deletePre {p : Effect → Bool} (env : GitEnv) (cfg : Config)
    (repoName branchName : String)
    (hlog : ∀ s r, p (.gitLog s r) = true) :
    TraceAll p (deletePre env cfg repoName branchName) := by
  unfold deletePre
  apply traceAll_andThen
    (traceAll_getLatestCommitOfBranch env cfg _ _ hlog)
  intro l
  split
  · exact traceAll_fail _ _
  · exact traceAll_pur _ _

theorem traceAll_commitShaPre {p : Effect → Bool} (env : GitEnv) (cfg : Config)
    (repoName branchName : String)
    (hlog : ∀ s r, p (.gitLog s r) = true) :
    TraceAll p (commitShaPre env cfg repoName branchName) := by
  unfold commitShaPre
  exact traceAll_map
    (traceAll_getLatestCommitOfBranch env cfg _ _ hlog) _

/-! Concrete configurations and environments used by witnesses and
counterexamples. -/

/-- A concrete configuration with the two volume roots, the GitHub
organisation and the two fixed branch names. -/
def cfg0 : Config :=
  ⟨"/efs/staging", "/efs/staging-lite", "isomerpages", "staging",
   "staging-lite"⟩

/-- Stats of a directory. -/
def dirStats : FileStats := ⟨false, true, 0⟩

/-- Stats of a small regular file. -/
def fileStats : FileStats := ⟨true, false, 5⟩

/-- A fully healthy environment for the repository `repo` on branch
`staging`: every path exists as a directory except `pages/b.md` (a file)
and the `a.md`/`c.md` paths (absent), the origin remote is canonical, and
every git command succeeds. -/
def envHappy : GitEnv where
  stat := fun p =>
    if p = "/efs/staging/repo/pages/a.md" then .threw (.jsError "ENOENT")
    else if p = "/efs/staging/repo/pages/c.md" then .threw (.jsError "ENOENT")
    else if p = "/efs/staging/repo/assets/a.md" then .threw (.jsError "ENOENT")
    else if p = "/efs/staging/repo/pages/b.md" then .ok fileStats
    else .ok dirStats
  checkIsRepo := fun _ => .ok true
  getRemoteUrl := fun _ => .ok "git@github.com:isomerpages/repo.git"
  currentBranch := fun _ => .ok "staging"
  checkout := fun _ _ => .ok ()
  revparseBlob := fun _ _ => .ok "blob0"
  gitLog := fun _ _ => .ok ⟨some ⟨"au", "ae", "d", "m", "sha0"⟩⟩
  resetHardClean := fun _ _ => .ok ()
  resetHard := fun _ _ => .ok ()
  pullCmd := fun _ => .ok ()
  pushCmd := fun _ _ => .ok ()
  gitAdd := fun _ _ => .ok ()
  gitCommit := fun _ _ => .ok "newsha"
  gitMv := fun _ _ _ => .ok ()
  catFile := fun _ _ => .ok "commit"
  mkdir := fun _ _ => .ok ()
  writeFile := fun _ _ _ => .ok ()
  rmFile := fun _ _ => .ok ()
  renameFile := fun _ _ => .ok ()
  readFile := fun _ _ => .ok "hello"
  readdir := fun _ => .ok []

/-- Like `envHappy` but the origin remote URL points at a different
repository, so the commit-stage validity check fails after the disk has
already been mutated. -/
def envWrongOrigin : GitEnv :=
  { envHappy with
    getRemoteUrl := fun _ => .ok "git@github.com:isomerpages/other.git" }

/-- Like `envHappy` but every disk mutation fails: file writes and
removals throw plain errors, `git mv` and directory-to-directory renames
throw git errors. -/
def envFail : GitEnv :=
  { envHappy with
    writeFile := fun _ _ _ => .threw (.jsError "boom")
    rmFile := fun _ _ => .threw (.jsError "rmboom")
    gitMv := fun _ _ _ => .threw (.gitError "gm")
    renameFile := fun _ _ => .threw (.gitError "rf") }

/-- Claim C1, counterexample: `create` on a working tree whose origin
remote is wrong writes the file to disk, then fails the commit-stage
validity check with a plain `GitFileSystemError` — a failure after the
disk mutation — and performs no rollback. -/
theorem claimC1_counterexample :
    (create envWrongOrigin cfg0 "repo" "u1" "hello" "pages" "a.md" .utf8
      "staging").result =
      .error (.gitFs "Folder \"repo\" is not a valid Git repo") ∧
    Effect.writeFile "/efs/staging/repo/pages/a.md" "hello" .utf8 ∈
      (create envWrongOrigin cfg0 "repo" "u1" "hello" "pages" "a.md" .utf8
        "staging").trace ∧
    ∀ eff ∈ (create envWrongOrigin cfg0 "repo" "u1" "hello" "pages" "a.md"
      .utf8 "staging").trace, eff.isResetHard = false := by
  refine ⟨by decide, by decide, by decide⟩

/-- Effects that are not a hard reset. -/
def notReset : Effect → Bool := fun eff => !eff.isResetHard

/-- Claim C1, amended: rollback is keyed to the NeedsRollback error class,
not to whether the disk was already mutated.  For each of the five
mutating operations: (i) the internal NeedsRollback marker never escapes
to the caller; (ii) when the guarded core fails with a NeedsRollback
failure, the operation hard-resets the branch to the anchor SHA captured
at the start, force-cleans, and surfaces the original message as a plain
GitFileSystemError; (iii) any other failure of the core — including
validation failures and commit-stage failures that occur after the disk
mutation — is returned directly and the operation performs no reset. -/
theorem claimC1_amended :
    (∀ env cfg repoName userId content directoryName fileName encoding
        branchName,
      (∀ e, (create env cfg repoName userId content directoryName fileName
          encoding branchName).result = .error e →
        ∀ m, e ≠ .needsRollback m) ∧
      (∀ old msg, (createPre env cfg repoName branchName).result = .ok old →
        (createCore env cfg repoName userId content directoryName fileName
          encoding branchName).result = .error (.needsRollback msg) →
        env.resetHardClean
          (getEfsVolPathFromBranch cfg branchName ++ "/" ++ repoName) old = .ok () →
        create env cfg repoName userId content directoryName fileName encoding
          branchName =
          ⟨.error (.gitFs msg),
           (createPre env cfg repoName branchName).trace ++
            ((createCore env cfg repoName userId content directoryName
              fileName encoding branchName).trace ++
             [.resetHard (getEfsVolPathFromBranch cfg branchName ++ "/" ++ repoName) old,
              .clean (getEfsVolPathFromBranch cfg branchName ++ "/" ++ repoName)])⟩) ∧
      (∀ old e, (createPre env cfg repoName branchName).result = .ok old →
        (createCore env cfg repoName userId content directoryName fileName
          encoding branchName).result = .error e →
        (∀ m, e ≠ .needsRollback m) →
        create env cfg repoName userId content directoryName fileName encoding
          branchName =
          ⟨.error e,
           (createPre env cfg repoName branchName).trace ++
            (createCore env cfg repoName userId content directoryName fileName
              encoding branchName).trace⟩ ∧
        TraceAll notReset
          (create env cfg repoName userId content directoryName fileName
            encoding branchName))) ∧
    (∀ env cfg repoName filePath fileContent oldSha userId branchName,
      (∀ e, (update env cfg repoName filePath fileContent oldSha userId
          branchName).result = .error e →
        ∀ m, e ≠ .needsRollback m) ∧
      (∀ old msg, (commitShaPre env cfg repoName branchName).result = .ok old →
        (updateCore env cfg repoName filePath fileContent oldSha userId
          branchName).result = .error (.needsRollback msg) →
        env.resetHardClean
          (getEfsVolPathFromBranch cfg branchName ++ "/" ++ repoName) old = .ok () →
        update env cfg repoName filePath fileContent oldSha userId branchName =
          ⟨.error (.gitFs msg),
           (commitShaPre env cfg repoName branchName).trace ++
            ((updateCore env cfg repoName filePath fileContent oldSha userId
              branchName).trace ++
             [.resetHard (getEfsVolPathFromBranch cfg branchName ++ "/" ++ repoName) old,
              .clean (getEfsVolPathFromBranch cfg branchName ++ "/" ++ repoName)])⟩) ∧
      (∀ old e, (commitShaPre env cfg repoName branchName).result = .ok old →
        (updateCore env cfg repoName filePath fileContent oldSha userId
          branchName).result = .error e →
        (∀ m, e ≠ .needsRollback m) →
        update env cfg repoName filePath fileContent oldSha userId branchName =
          ⟨.error e,
           (commitShaPre env cfg repoName branchName).trace ++
            (updateCore env cfg repoName filePath fileContent oldSha userId
              branchName).trace⟩ ∧
        TraceAll notReset
          (update env cfg repoName filePath fileContent oldSha userId
            branchName))) ∧
    (∀ env cfg repoName path oldSha userId isDir branchName,
      (∀ e, (delete env cfg repoName path oldSha userId isDir
          branchName).result = .error e →
        ∀ m, e ≠ .needsRollback m) ∧
      (∀ old msg, (deletePre env cfg repoName branchName).result = .ok old →
        (deleteCore env cfg repoName path oldSha userId isDir
          branchName).result = .error (.needsRollback msg) →
        env.resetHardClean
          (getEfsVolPathFromBranch cfg branchName ++ "/" ++ repoName) old = .ok () →
        delete env cfg repoName path oldSha userId isDir branchName =
          ⟨.error (.gitFs msg),
           (deletePre env cfg repoName branchName).trace ++
            ((deleteCore env cfg repoName path oldSha userId isDir
              branchName).trace ++
             [.resetHard (getEfsVolPathFromBranch cfg branchName ++ "/" ++ repoName) old,
              .clean (getEfsVolPathFromBranch cfg branchName ++ "/" ++ repoName)])⟩) ∧
      (∀ old e, (deletePre env cfg repoName branchName).result = .ok old →
        (deleteCore env cfg repoName path oldSha userId isDir
          branchName).result = .error e →
        (∀ m, e ≠ .needsRollback m) →
        delete env cfg repoName path oldSha userId isDir branchName =
          ⟨.error e,
           (deletePre env cfg repoName branchName).trace ++
            (deleteCore env cfg repoName path oldSha userId isDir
              branchName).trace⟩ ∧
        TraceAll notReset
          (delete env cfg repoName path oldSha userId isDir branchName))) ∧
    (∀ env cfg repoName oldPath newPath userId branchName message,
      (∀ e, (renameSinglePath env cfg repoName oldPath newPath userId
          branchName message).result = .error e →
        ∀ m, e ≠ .needsRollback m) ∧
      (∀ old msg, (commitShaPre env cfg repoName branchName).result = .ok old →
        (renameCore env cfg repoName oldPath newPath userId branchName
          message).result = .error (.needsRollback msg) →
        env.resetHardClean
          (getEfsVolPathFromBranch cfg branchName ++ "/" ++ repoName) old = .ok () →
        renameSinglePath env cfg repoName oldPath newPath userId branchName
          message =
          ⟨.error (.gitFs msg),
           (commitShaPre env cfg repoName branchName).trace ++
            ((renameCore env cfg repoName oldPath newPath userId branchName
              message).trace ++
             [.resetHard (getEfsVolPathFromBranch cfg branchName ++ "/" ++ repoName) old,
              .clean (getEfsVolPathFromBranch cfg branchName ++ "/" ++ repoName)])⟩) ∧
      (∀ old e, (commitShaPre env cfg repoName branchName).result = .ok old →
        (renameCore env cfg repoName oldPath newPath userId branchName
          message).result = .error e →
        (∀ m, e ≠ .needsRollback m) →
        renameSinglePath env cfg repoName oldPath newPath userId branchName
          message =
          ⟨.error e,
           (commitShaPre env cfg repoName branchName).trace ++
            (renameCore env cfg repoName oldPath newPath userId branchName
              message).trace⟩ ∧
        TraceAll notReset
          (renameSinglePath env cfg repoName oldPath newPath userId branchName
            message))) ∧
    (∀ env cfg repoName oldPath newPath userId targetFiles branchName message,
      (∀ e, (moveFiles env cfg repoName oldPath newPath userId targetFiles
          branchName message).result = .error e →
        ∀ m, e ≠ .needsRollback m) ∧
      (∀ old msg, (commitShaPre env cfg repoName branchName).result = .ok old →
        (moveCore env cfg repoName oldPath newPath userId targetFiles
          branchName message).result = .error (.needsRollback msg) →
        env.resetHardClean
          (getEfsVolPathFromBranch cfg branchName ++ "/" ++ repoName) old = .ok () →
        moveFiles env cfg repoName oldPath newPath userId targetFiles
          branchName message =
          ⟨.error (.gitFs msg),
           (commitShaPre env cfg repoName branchName).trace ++
            ((moveCore env cfg repoName oldPath newPath userId targetFiles
              branchName message).trace ++
             [.resetHard (getEfsVolPathFromBranch cfg branchName ++ "/" ++ repoName) old,
              .clean (getEfsVolPathFromBranch cfg branchName ++ "/" ++ repoName)])⟩) ∧
      (∀ old e, (commitShaPre env cfg repoName branchName).result = .ok old →
        (moveCore env cfg repoName oldPath newPath userId targetFiles
          branchName message).result = .error e →
        (∀ m, e ≠ .needsRollback m) →
        moveFiles env cfg repoName oldPath newPath userId targetFiles
          branchName message =
          ⟨.error e,
           (commitShaPre env cfg repoName branchName).trace ++
            (moveCore env cfg repoName oldPath newPath userId targetFiles
              branchName message).trace⟩ ∧
        TraceAll notReset
          (moveFiles env cfg repoName oldPath newPath userId targetFiles
            branchName message))) := by
  refine ⟨?_, ?_, ?_, ?_, ?_⟩
  · intro env cfg repoName userId content directoryName fileName encoding
      branchName
    have hnr : ∀ eff : Effect, ((fun eff => !eff.isResetHard) eff = true) ∨ True :=
      fun _ => Or.inr trivial
    refine ⟨?_, ?_, ?_⟩
    · intro e h
      rw [create_decomp] at h
      exact mutGuard_no_needsRollback env cfg repoName branchName _ _
        (createPre_error_gitFs env cfg repoName branchName) e h
    · intro old msg h1 h2 h3
      rw [create_decomp]
      exact mutGuard_rollback_branch env cfg repoName branchName _ _ old msg
        h1 h2 h3
    · intro old e h1 h2 h3
      rw [create_decomp]
      have heq := mutGuard_plain_branch env cfg repoName branchName
        (createPre env cfg repoName branchName)
        (fun _ => createCore env cfg repoName userId content directoryName
          fileName encoding branchName) old e h1 h2 h3
      refine ⟨heq, ?_⟩
      rw [heq]
      intro eff heff
      simp only [List.mem_append] at heff
      rcases heff with heff | heff
      · exact @traceAll_createPre notReset env cfg repoName branchName
          (fun _ _ => rfl) eff heff
      · exact @traceAll_createCore notReset env cfg repoName userId content
          directoryName fileName encoding branchName (fun _ => rfl)
          (fun _ => rfl) (fun _ => rfl) (fun _ => rfl) (fun _ _ => rfl)
          (fun _ _ => rfl) (fun _ _ => rfl) (fun _ _ => rfl)
          (fun _ _ _ => rfl) eff heff
  · intro env cfg repoName filePath fileContent oldSha userId branchName
    refine ⟨?_, ?_, ?_⟩
    · intro e h
      rw [update_decomp] at h
      exact mutGuard_no_needsRollback env cfg repoName branchName _ _
        (commitShaPre_error_gitFs env cfg repoName branchName) e h
    · intro old msg h1 h2 h3
      rw [update_decomp]
      exact mutGuard_rollback_branch env cfg repoName branchName _ _ old msg
        h1 h2 h3
    · intro old e h1 h2 h3
      rw [update_decomp]
      have heq := mutGuard_plain_branch env cfg repoName branchName
        (commitShaPre env cfg repoName branchName)
        (fun _ => updateCore env cfg repoName filePath fileContent oldSha
          userId branchName) old e h1 h2 h3
      refine ⟨heq, ?_⟩
      rw [heq]
      intro eff heff
      simp only [List.mem_append] at heff
      rcases heff with heff | heff
      · exact @traceAll_commitShaPre notReset env cfg repoName branchName
          (fun _ _ => rfl) eff heff
      · exact @traceAll_updateCore notReset env cfg repoName filePath fileContent
          oldSha userId branchName (fun _ => rfl) (fun _ => rfl)
          (fun _ => rfl) (fun _ => rfl) (fun _ _ => rfl) (fun _ _ => rfl)
          (fun _ _ => rfl) (fun _ _ => rfl) (fun _ _ _ => rfl) eff heff
  · intro env cfg repoName path oldSha userId isDir branchName
    refine ⟨?_, ?_, ?_⟩
    · intro e h
      rw [delete_decomp] at h
      exact mutGuard_no_needsRollback env cfg repoName branchName _ _
        (deletePre_error_gitFs env cfg repoName branchName) e h
    · intro old msg h1 h2 h3
      rw [delete_decomp]
      exact mutGuard_rollback_branch env cfg repoName branchName _ _ old msg
        h1 h2 h3
    · intro old e h1 h2 h3
      rw [delete_decomp]
      have heq := mutGuard_plain_branch env cfg repoName branchName
        (deletePre env cfg repoName branchName)
        (fun _ => deleteCore env cfg repoName path oldSha userId isDir
          branchName) old e h1 h2 h3
      refine ⟨heq, ?_⟩
      rw [heq]
      intro eff heff
      simp only [List.mem_append] at heff
      rcases heff with heff | heff
      · exact @traceAll_deletePre notReset env cfg repoName branchName
          (fun _ _ => rfl) eff heff
      · exact @traceAll_deleteCore notReset env cfg repoName path oldSha userId isDir
          branchName (fun _ => rfl) (fun _ => rfl) (fun _ => rfl)
          (fun _ => rfl) (fun _ _ => rfl) (fun _ _ => rfl) (fun _ _ => rfl)
          (fun _ _ _ => rfl) (fun _ _ => rfl) eff heff
  · intro env cfg repoName oldPath newPath userId branchName message
    refine ⟨?_, ?_, ?_⟩
    · intro e h
      rw [renameSinglePath_decomp] at h
      exact mutGuard_no_needsRollback env cfg repoName branchName _ _
        (commitShaPre_error_gitFs env cfg repoName branchName) e h
    · intro old msg h1 h2 h3
      rw [renameSinglePath_decomp]
      exact mutGuard_rollback_branch env cfg repoName branchName _ _ old msg
        h1 h2 h3
    · intro old e h1 h2 h3
      rw [renameSinglePath_decomp]
      have heq := mutGuard_plain_branch env cfg repoName branchName
        (commitShaPre env cfg repoName branchName)
        (fun _ => renameCore env cfg repoName oldPath newPath userId
          branchName message) old e h1 h2 h3
      refine ⟨heq, ?_⟩
      rw [heq]
      intro eff heff
      simp only [List.mem_append] at heff
      rcases heff with heff | heff
      · exact @traceAll_commitShaPre notReset env cfg repoName branchName
          (fun _ _ => rfl) eff heff
      · exact @traceAll_renameCore notReset env cfg repoName oldPath newPath userId
          branchName message (fun _ => rfl) (fun _ => rfl) (fun _ => rfl)
          (fun _ => rfl) (fun _ _ => rfl) (fun _ _ => rfl) (fun _ _ => rfl)
          (fun _ _ _ => rfl) eff heff
  · intro env cfg repoName oldPath newPath userId targetFiles branchName
      message
    refine ⟨?_, ?_, ?_⟩
    · intro e h
      rw [moveFiles_decomp] at h
      exact mutGuard_no_needsRollback env cfg repoName branchName _ _
        (commitShaPre_error_gitFs env cfg repoName branchName) e h
    · intro old msg h1 h2 h3
      rw [moveFiles_decomp]
      exact mutGuard_rollback_branch env cfg repoName branchName _ _ old msg
        h1 h2 h3
    · intro old e h1 h2 h3
      rw [moveFiles_decomp]
      have heq := mutGuard_plain_branch env cfg repoName branchName
        (commitShaPre env cfg repoName branchName)
        (fun _ => moveCore env cfg repoName oldPath newPath userId
          targetFiles branchName message) old e h1 h2 h3
      refine ⟨heq, ?_⟩
      rw [heq]
      intro eff heff
      simp only [List.mem_append] at heff
      rcases heff with heff | heff
      · exact @traceAll_commitShaPre notReset env cfg repoName branchName
          (fun _ _ => rfl) eff heff
      · exact @traceAll_moveCore notReset env cfg repoName oldPath newPath userId
          targetFiles branchName message (fun _ => rfl) (fun _ => rfl)
          (fun _ => rfl) (fun _ => rfl) (fun _ _ => rfl) (fun _ _ => rfl)
          (fun _ _ => rfl) (fun _ _ => rfl) (fun _ _ => rfl) eff heff

/-- Witness for claim C1 (amended) at concrete environments: each of the
five operations rolls back and surfaces a plain error when its core fails
with a NeedsRollback failure, and `create` under a wrong origin remote
fails after the write with no reset. -/
theorem claimC1_amended_witness :
    (create envFail cfg0 "repo" "u1" "hello" "pages" "a.md" .utf8
      "staging").result = .error (.gitFs "boom") ∧
    Effect.resetHard "/efs/staging/repo" "sha0" ∈
      (create envFail cfg0 "repo" "u1" "hello" "pages" "a.md" .utf8
        "staging").trace ∧
    (update envFail cfg0 "repo" "pages/b.md" "x" "blob0" "u1"
      "staging").result = .error (.gitFs "Unable to update file on disk") ∧
    (delete envFail cfg0 "repo" "pages/b.md" "blob0" "u1" false
      "staging").result = .error (.gitFs "Unable to delete file on disk") ∧
    (renameSinglePath envFail cfg0 "repo" "pages/b.md" "pages/c.md" "u1"
      "staging" none).result =
      .error (.gitFs "Unable to rename pages/b.md to pages/c.md") ∧
    (moveFiles envFail cfg0 "repo" "pages" "assets" "u1" ["a.md"] "staging"
      none).result = .error (.gitFs "Unable to move a.md to assets") ∧
    (create envWrongOrigin cfg0 "repo" "u1" "hello" "pages" "a.md" .utf8
      "staging").result =
      .error (.gitFs "Folder \"repo\" is not a valid Git repo") ∧
    TraceAll notReset
      (create envWrongOrigin cfg0 "repo" "u1" "hello" "pages" "a.md" .utf8
        "staging") := by
  obtain ⟨Hc, Hu, Hd, Hr, Hm⟩ := claimC1_amended
  have hc := (Hc envFail cfg0 "repo" "u1" "hello" "pages" "a.md" .utf8
    "staging").2.1 "sha0" "boom" (by decide) (by decide) (by decide)
  have hu := (Hu envFail cfg0 "repo" "pages/b.md" "x" "blob0" "u1"
    "staging").2.1 "sha0" "Unable to update file on disk" (by decide)
    (by decide) (by decide)
  have hd := (Hd envFail cfg0 "repo" "pages/b.md" "blob0" "u1" false
    "staging").2.1 "sha0" "Unable to delete file on disk" (by decide)
    (by decide) (by decide)
  have hr := (Hr envFail cfg0 "repo" "pages/b.md" "pages/c.md" "u1" "staging"
    none).2.1 "sha0" "Unable to rename pages/b.md to pages/c.md" (by decide)
    (by decide) (by decide)
  have hm := (Hm envFail cfg0 "repo" "pages" "assets" "u1" ["a.md"] "staging"
    none).2.1 "sha0" "Unable to move a.md to assets" (by decide) (by decide)
    (by decide)
  have hcw := (Hc envWrongOrigin cfg0 "repo" "u1" "hello" "pages" "a.md"
    .utf8 "staging").2.2 "sha0"
    (.gitFs "Folder \"repo\" is not a valid Git repo") (by decide) (by decide)
    (by intro m hm2; exact E.noConfusion hm2)
  refine ⟨by rw [hc], by rw [hc]; decide, by rw [hu], by rw [hd], by rw [hr],
    by rw [hm], by rw [hcw.1], hcw.2⟩

theorem except_map_error {α β : Type} {r : Except E α} {f : α → β} {e : E}
    (h : r.map f = .error e) : r = .error e := by
  cases r with
  | ok a => simp [Except.map] at h
  | error e' => simp [Except.map] at h; rw [h]

theorem seqExcept_pair_error {α : Type} {r1 r2 : Except E α} {e : E}
    (h : GFS.seqExcept [r1, r2] = .error e) :
    r1 = .error e ∨ r2 = .error e := by
  match r1 with
  | .error e1 =>
    simp [GFS.seqExcept] at h
    left
    rw [h]
  | .ok a =>
    match r2 with
    | .error e2 =>
      simp [GFS.seqExcept] at h
      right
      rw [h]
    | .ok b => simp [GFS.seqExcept] at h

/-- Errors of `getGitBlobHash` are GitFileSystemError only. -/
theorem getGitBlobHash_error_gitFs (env : GitEnv) (cfg : Config)
    (repoName filePath : String) (isStaging : Bool) (e : E)
    (h : (getGitBlobHash env cfg repoName filePath isStaging).result = .error e) :
    ∃ m, e = .gitFs m := by
  rw [getGitBlobHash_eq] at h
  simp only at h
  rcases hb : env.revparseBlob (getEfsVolPath cfg isStaging ++ "/" ++ repoName)
      filePath with s | t <;> rw [hb] at h
  · simp at h
  · match t with
    | .gitError m => simp at h; exact ⟨_, h.symm⟩
    | .jsError m => simp at h; exact ⟨_, h.symm⟩
    | .nonError => simp at h; exact ⟨_, h.symm⟩

/-- Errors of `read` are NotFound or GitFileSystemError only. -/
theorem read_error_class (env : GitEnv) (cfg : Config)
    (repoName filePath : String) (enc : Encoding) (e : E)
    (h : (read env cfg repoName filePath enc).result = .error e) :
    (∃ m, e = .notFound m) ∨ (∃ m, e = .gitFs m) := by
  unfold read at h
  simp only [GFS.map_result] at h
  have h3 := except_map_error h
  simp only [GFS.combineAll, List.map] at h3
  have h4 := seqExcept_pair_error h3
  rcases h4 with h4 | h4
  · simp only [GFS.prim_result] at h4
    rcases hf : env.readFile (cfg.stagingVol ++ "/" ++ repoName ++ "/" ++ filePath)
        enc with c | t <;> rw [hf] at h4
    · simp at h4
    · by_cases he : t.isErrorWith "ENOENT" = true
      · simp [he] at h4
        exact Or.inl ⟨_, h4.symm⟩
      · by_cases hie : t.isError = true
        · simp [he, hie] at h4
          exact Or.inr ⟨_, h4.symm⟩
        · simp [he, hie] at h4
          exact Or.inr ⟨_, h4.symm⟩
  · exact Or.inr (getGitBlobHash_error_gitFs env cfg repoName filePath true e h4)

/-- `getMimeType` reaches the switch for every extension and returns ok. -/
theorem getMimeType_total (fe : String) :
    getMimeType fe =
      .ok (if fe = "svg" then "image/svg+xml"
        else if fe = "ico" then "image/vnd.microsoft.icon"
        else if fe = "jpg" then "image/jpeg"
        else if fe = "tif" then "image/tiff"
        else "image/" ++ fe) := by
  unfold getMimeType
  by_cases h1 : fe = "svg" <;> by_cases h2 : fe = "ico" <;>
    by_cases h3 : fe = "jpg" <;> by_cases h4 : fe = "tif" <;> simp_all

/-- The only error `getFileExtension` produces. -/
theorem getFileExtension_error (fileName : String) (e : E)
    (h : getFileExtension fileName = .error e) :
    e = .mediaType "Unable to find file extension" := by
  unfold getFileExtension at h
  by_cases hp : (jsSplit fileName '.').length > 1
  · simp [hp] at h
  · simp [hp] at h
    exact h.symm

/-- Claim C10: `getMimeType` is total — every extension, allowed or not,
maps to `ok` with the documented mime type (the unsupported-extension
check discards its error), so `readMediaFile` can only produce a
MediaTypeError from the missing-extension check. -/
theorem claimC10_theorem :
    (∀ fileExtension : String,
      getMimeType fileExtension =
        .ok (if fileExtension = "svg" then "image/svg+xml"
          else if fileExtension = "ico" then "image/vnd.microsoft.icon"
          else if fileExtension = "jpg" then "image/jpeg"
          else if fileExtension = "tif" then "image/tiff"
          else "image/" ++ fileExtension)) ∧
    ("svg" ∉ ALLOWED_FILE_EXTENSIONS ∧
      getMimeType "svg" = .ok "image/svg+xml") ∧
    (∀ env cfg siteName directoryName fileName m,
      (readMediaFile env cfg siteName directoryName fileName).result =
        .error (.mediaType m) →
      m = "Unable to find file extension") := by
  refine ⟨getMimeType_total, ⟨by decide, rfl⟩, ?_⟩
  intro env cfg siteName directoryName fileName m h
  unfold readMediaFile at h
  unfold GFS.andThen at h
  rcases hr : (read env cfg siteName (directoryName ++ "/" ++ fileName)
      .base64).result with e | file <;> rw [hr] at h <;> simp at h
  · subst h
    rcases read_error_class env cfg siteName (directoryName ++ "/" ++ fileName)
        .base64 _ hr with ⟨m', hm'⟩ | ⟨m', hm'⟩ <;> exact E.noConfusion hm'
  · rcases hext : getFileExtension fileName with e' | ext <;> rw [hext] at h <;>
      dsimp only at h
    · simp [GFS.fail] at h
      have he' := getFileExtension_error fileName e' hext
      rw [he'] at h
      simp at h
      exact h.symm
    · rcases hmime : getMimeType ext with e'' | mime <;> rw [hmime] at h
      · rw [getMimeType_total ext] at hmime
        simp at hmime
      · simp [GFS.pur] at h

/-- Witness for claim C10: an extension outside the allowed list still
yields a mime type, and a file name without an extension makes
`readMediaFile` fail with the missing-extension message. -/
theorem claimC10_witness :
    getMimeType "webp" = .ok "image/webp" ∧
    "Unable to find file extension" = "Unable to find file extension" := by
  constructor
  · rw [claimC10_theorem.1 "webp"]
    decide
  · exact claimC10_theorem.2.2 envHappy cfg0 "repo" "images" "noext"
      "Unable to find file extension" (by decide)

theorem andThen_result_ok {α β : Type} {m : GFS α} {f : α → GFS β} {b : β}
    (h : (m.andThen f).result = .ok b) :
    ∃ a, m.result = .ok a ∧ (f a).result = .ok b := by
  unfold GFS.andThen at h
  rcases hr : m.result with e | a <;> rw [hr] at h <;> simp at h
  exact ⟨a, rfl, h⟩

theorem orElse_result_ok {α : Type} {m : GFS α} {g : E → GFS α} {a : α}
    (h : (m.orElse g).result = .ok a) :
    m.result = .ok a ∨ ∃ e, m.result = .error e ∧ (g e).result = .ok a := by
  unfold GFS.orElse at h
  rcases hr : m.result with e | a' <;> rw [hr] at h <;> simp at h
  · exact Or.inr ⟨e, rfl, h⟩
  · subst h
    exact Or.inl rfl

/-- Claim C8: every entry returned by `listDirectoryContents` carries a
non-empty blob SHA, and that SHA is exactly the successful HEAD blob
lookup for the entry's path — an entry whose lookup fails gets the empty
SHA and is filtered out of the result. -/
theorem claimC8_theorem (env : GitEnv) (cfg : Config)
    (repoName directoryPath branchName : String)
    (items : List GitDirectoryItem)
    (h : (listDirectoryContents env cfg repoName directoryPath
      branchName).result = .ok items) :
    ∀ item ∈ items,
      item.sha ≠ "" ∧
      env.revparseBlob (getEfsVolPath cfg true ++ "/" ++ repoName) item.path =
        .ok item.sha := by
  intro item hitem
  unfold listDirectoryContents at h
  obtain ⟨items0, h1, h2⟩ := andThen_result_ok h
  simp [GFS.pur] at h2
  subst h2
  simp only [List.mem_filter] at hitem
  obtain ⟨hin, hsha⟩ := hitem
  have hne : item.sha ≠ "" := by
    intro hc
    rw [hc] at hsha
    simp at hsha
  refine ⟨hne, ?_⟩
  obtain ⟨contents, hc1, hc2⟩ := andThen_result_ok h1
  obtain ⟨mItem, hm, hmok⟩ := GFS.combineAll_ok_mem hc2 item hin
  simp only [List.mem_map] at hm
  obtain ⟨entry, hentry, rfl⟩ := hm
  obtain ⟨sha0, hs1, hs2⟩ := andThen_result_ok hmok
  obtain ⟨st, ht1, ht2⟩ := andThen_result_ok hs2
  simp [GFS.pur] at ht2
  rcases orElse_result_ok hs1 with hblob | ⟨e', he', hpur⟩
  · rw [getGitBlobHash_eq] at hblob
    simp only at hblob
    rcases hb : env.revparseBlob (getEfsVolPath cfg true ++ "/" ++ repoName)
        (if directoryPath = "" then entry.name
         else directoryPath ++ "/" ++ entry.name) with s | t <;>
      rw [hb] at hblob
    · simp at hblob
      subst hblob
      rw [← ht2]
      simpa using hb
    · match t with
      | .gitError m => simp at hblob
      | .jsError m => simp at hblob
      | .nonError => simp at hblob
  · simp [GFS.pur] at hpur
    subst hpur
    rw [← ht2] at hne
    simp at hne

/-- An environment whose `pages` directory holds one tracked file
(`a.md`, blob `blobA`) and one untracked artifact (`junk.lock`, blob
lookup fails). -/
def envList : GitEnv :=
  { envHappy with
    stat := fun p =>
      if p = "/efs/staging/repo/pages" then .ok dirStats else .ok fileStats
    readdir := fun _ => .ok [⟨"a.md", false⟩, ⟨"junk.lock", false⟩]
    revparseBlob := fun _ p =>
      if p = "pages/a.md" then .ok "blobA" else .threw (.gitError "missing") }

/-- Witness for claim C8: in `envList` the listing returns exactly the
tracked entry, whose SHA is its successful blob lookup; the untracked
artifact is absent. -/
theorem claimC8_witness :
    ("blobA" : String) ≠ "" ∧
    envList.revparseBlob (getEfsVolPath cfg0 true ++ "/" ++ "repo")
      "pages/a.md" = .ok "blobA" := by
  exact claimC8_theorem envList cfg0 "repo" "pages" "staging"
    [⟨"a.md", "file", "blobA", "pages/a.md", 5⟩] (by decide)
    ⟨"a.md", "file", "blobA", "pages/a.md", 5⟩ (by decide)

/-- Effects that do not mutate the working tree or the Git state. -/
def notMutating : Effect → Bool := fun eff => !eff.isMutating

/-- Effects that are not blob-hash lookups. -/
def noBlobLookup : Effect → Bool := fun eff => !eff.isRevparseBlob

/-- Scenario: `updateCore` halts at the optimistic-concurrency check. -/
theorem updateCore_conflict (env : GitEnv) (cfg : Config)
    (repoName filePath fileContent oldSha userId branchName : String)
    {st : FileStats} {sha : String}
    (h2 : env.stat (getEfsVolPath cfg (isStagingOf cfg branchName) ++ "/" ++
      repoName ++ "/" ++ filePath) = .ok st)
    (h3 : st.isFile = true)
    (h4 : env.revparseBlob (getEfsVolPath cfg true ++ "/" ++ repoName)
      filePath = .ok sha)
    (h5 : sha ≠ oldSha) :
    updateCore env cfg repoName filePath fileContent oldSha userId
      branchName =
      ⟨.error (.conflict "File has been changed recently, please try again"),
       [.stat (getEfsVolPath cfg (isStagingOf cfg branchName) ++ "/" ++
          repoName ++ "/" ++ filePath),
        .revparseBlob (getEfsVolPath cfg true ++ "/" ++ repoName) filePath]⟩ := by
  unfold updateCore
  simp [getFilePathStats_eq, getGitBlobHash_eq, h2, h3, h4, h5, GFS.andThen,
    GFS.pur, GFS.fail]

/-- Scenario: `deleteCore` with `isDir = false` halts at the
optimistic-concurrency check. -/
theorem deleteCore_conflict (env : GitEnv) (cfg : Config)
    (repoName path oldSha userId branchName : String)
    {st : FileStats} {sha : String}
    (h2 : env.stat (getEfsVolPath cfg (isStagingOf cfg branchName) ++ "/" ++
      repoName ++ "/" ++ path) = .ok st)
    (h3 : st.isFile = true)
    (h4 : env.revparseBlob (getEfsVolPath cfg true ++ "/" ++ repoName)
      path = .ok sha)
    (h5 : sha ≠ oldSha) :
    deleteCore env cfg repoName path oldSha userId false branchName =
      ⟨.error (.conflict "File has been changed recently, please try again"),
       [.stat (getEfsVolPath cfg (isStagingOf cfg branchName) ++ "/" ++
          repoName ++ "/" ++ path),
        .revparseBlob (getEfsVolPath cfg true ++ "/" ++ repoName) path]⟩ := by
  unfold deleteCore
  simp [getFilePathStats_eq, getGitBlobHash_eq, h2, h3, h4, h5, GFS.andThen,
    GFS.pur, GFS.fail, GFS.map, Except.map]

/-- Claim C2: the optimistic-concurrency check.  For `update`, and for
`delete` of a file, a blob SHA (resolved from HEAD) that differs from the
caller-supplied `oldSha` aborts the operation with the Conflict error and
no disk mutation and no commit are performed; deleting a directory skips
the blob SHA check entirely — no blob lookup is ever issued. -/
theorem claimC2_theorem :
    (∀ env cfg repoName filePath fileContent oldSha userId branchName old
        (st : FileStats) (sha : String),
      (commitShaPre env cfg repoName branchName).result = .ok old →
      env.stat (getEfsVolPath cfg (isStagingOf cfg branchName) ++ "/" ++
        repoName ++ "/" ++ filePath) = .ok st →
      st.isFile = true →
      env.revparseBlob (getEfsVolPath cfg true ++ "/" ++ repoName) filePath =
        .ok sha →
      sha ≠ oldSha →
      (update env cfg repoName filePath fileContent oldSha userId
          branchName).result =
        .error (.conflict "File has been changed recently, please try again") ∧
      TraceAll notMutating
        (update env cfg repoName filePath fileContent oldSha userId
          branchName)) ∧
    (∀ env cfg repoName path oldSha userId branchName old
        (st : FileStats) (sha : String),
      (deletePre env cfg repoName branchName).result = .ok old →
      env.stat (getEfsVolPath cfg (isStagingOf cfg branchName) ++ "/" ++
        repoName ++ "/" ++ path) = .ok st →
      st.isFile = true →
      env.revparseBlob (getEfsVolPath cfg true ++ "/" ++ repoName) path =
        .ok sha →
      sha ≠ oldSha →
      (delete env cfg repoName path oldSha userId false branchName).result =
        .error (.conflict "File has been changed recently, please try again") ∧
      TraceAll notMutating
        (delete env cfg repoName path oldSha userId false branchName)) ∧
    (∀ env cfg repoName path oldSha userId branchName,
      TraceAll noBlobLookup
        (delete env cfg repoName path oldSha userId true branchName)) := by
  refine ⟨?_, ?_, ?_⟩
  · intro env cfg repoName filePath fileContent oldSha userId branchName old
      st sha h1 h2 h3 h4 h5
    have hcore := updateCore_conflict env cfg repoName filePath fileContent
      oldSha userId branchName h2 h3 h4 h5
    have heq := mutGuard_plain_branch env cfg repoName branchName
      (commitShaPre env cfg repoName branchName)
      (fun _ => updateCore env cfg repoName filePath fileContent oldSha
        userId branchName) old _ h1 (by rw [hcore])
      (by intro m hm; exact E.noConfusion hm)
    rw [update_decomp, heq]
    refine ⟨rfl, ?_⟩
    intro eff heff
    simp only [List.mem_append] at heff
    rcases heff with heff | heff
    · exact @traceAll_commitShaPre notMutating env cfg repoName branchName
        (fun _ _ => rfl) eff heff
    · rw [hcore] at heff
      simp only [List.mem_cons, List.mem_singleton] at heff
      rcases heff with rfl | rfl | heff
      · rfl
      · rfl
      · simp at heff
  · intro env cfg repoName path oldSha userId branchName old st sha h1 h2 h3
      h4 h5
    have hcore := deleteCore_conflict env cfg repoName path oldSha userId
      branchName h2 h3 h4 h5
    have heq := mutGuard_plain_branch env cfg repoName branchName
      (deletePre env cfg repoName branchName)
      (fun _ => deleteCore env cfg repoName path oldSha userId false
        branchName) old _ h1 (by rw [hcore])
      (by intro m hm; exact E.noConfusion hm)
    rw [delete_decomp, heq]
    refine ⟨rfl, ?_⟩
    intro eff heff
    simp only [List.mem_append] at heff
    rcases heff with heff | heff
    · exact @traceAll_deletePre notMutating env cfg repoName branchName
        (fun _ _ => rfl) eff heff
    · rw [hcore] at heff
      simp only [List.mem_cons, List.mem_singleton] at heff
      rcases heff with rfl | rfl | heff
      · rfl
      · rfl
      · simp at heff
  · intro env cfg repoName path oldSha userId branchName
    rw [delete_decomp]
    apply traceAll_andThen
    · exact @traceAll_deletePre noBlobLookup env cfg repoName branchName
        (fun _ _ => rfl)
    · intro old
      apply traceAll_rollbackGuard
      · exact @traceAll_deleteCore noBlobLookup env cfg repoName path oldSha
          userId true branchName (fun _ => rfl) (fun _ => rfl) (fun _ => rfl)
          (fun _ => rfl) (fun _ _ => rfl) (fun _ _ => rfl) (fun _ _ => rfl)
          (fun hff => Bool.noConfusion hff) (fun _ _ => rfl)
      · intro s sh
        rfl
      · intro s
        rfl

/-- Witness for claim C2: a stale `oldSha` makes `update` and file
`delete` fail with the Conflict error in the healthy environment. -/
theorem claimC2_witness :
    (update envHappy cfg0 "repo" "pages/b.md" "new content" "stale" "u1"
      "staging").result =
      .error (.conflict "File has been changed recently, please try again") ∧
    (delete envHappy cfg0 "repo" "pages/b.md" "stale" "u1" false
      "staging").result =
      .error (.conflict "File has been changed recently, please try again") := by
  refine ⟨?_, ?_⟩
  · exact (claimC2_theorem.1 envHappy cfg0 "repo" "pages/b.md" "new content"
      "stale" "u1" "staging" "sha0" fileStats "blob0" (by decide) (by decide)
      (by decide) (by decide) (by decide)).1
  · exact (claimC2_theorem.2.1 envHappy cfg0 "repo" "pages/b.md" "stale" "u1"
      "staging" "sha0" fileStats "blob0" (by decide) (by decide) (by decide)
      (by decide) (by decide)).1

theorem andThen_result_error {α β : Type} {m : GFS α} {f : α → GFS β} {e : E}
    (h : (m.andThen f).result = .error e) :
    m.result = .error e ∨ ∃ a, m.result = .ok a ∧ (f a).result = .error e := by
  unfold GFS.andThen at h
  rcases hr : m.result with e' | a <;> rw [hr] at h <;> simp at h
  · subst h
    exact Or.inl rfl
  · exact Or.inr ⟨a, rfl, h⟩

theorem orElse_result_error {α : Type} {m : GFS α} {g : E → GFS α} {e : E}
    (h : (m.orElse g).result = .error e) :
    ∃ e', m.result = .error e' ∧ (g e').result = .error e := by
  unfold GFS.orElse at h
  rcases hr : m.result with e' | a <;> rw [hr] at h <;> simp at h
  exact ⟨e', rfl, h⟩

theorem getFilePathStats_error_class (env : GitEnv) (cfg : Config)
    (repoName filePath : String) (isStaging : Bool) (e : E)
    (h : (getFilePathStats env cfg repoName filePath isStaging).result = .error e) :
    e = .notFound "File/Directory does not exist" ∨ ∃ m, e = .gitFs m := by
  rw [getFilePathStats_eq] at h
  simp only at h
  rcases hs : env.stat (getEfsVolPath cfg isStaging ++ "/" ++ repoName ++ "/" ++ filePath)
      with s | t <;> rw [hs] at h
  · simp at h
  · by_cases he : t.isErrorWith "ENOENT" = true
    · simp [he] at h
      exact Or.inl h.symm
    · by_cases hie : t.isError = true
      · simp [he, hie] at h
        exact Or.inr ⟨_, h.symm⟩
      · simp [he, hie] at h
        exact Or.inr ⟨_, h.symm⟩

theorem isGitInitialized_error_gitFs (env : GitEnv) (cfg : Config)
    (repoName : String) (isStaging : Bool) (e : E)
    (h : (isGitInitialized env cfg repoName isStaging).result = .error e) :
    ∃ m, e = .gitFs m := by
  rw [isGitInitialized_eq] at h
  simp only at h
  rcases hs : env.checkIsRepo (getEfsVolPath cfg isStaging ++ "/" ++ repoName)
      with b | t <;> rw [hs] at h
  · simp at h
  · match t with
    | .gitError m => simp at h; exact ⟨_, h.symm⟩
    | .jsError m => simp at h; exact ⟨_, h.symm⟩
    | .nonError => simp at h; exact ⟨_, h.symm⟩

theorem isOriginRemoteCorrect_error_gitFs (env : GitEnv) (cfg : Config)
    (repoName : String) (isStaging : Bool) (e : E)
    (h : (isOriginRemoteCorrect env cfg repoName isStaging).result = .error e) :
    ∃ m, e = .gitFs m := by
  rw [isOriginRemoteCorrect_eq] at h
  simp only at h
  rcases hs : env.getRemoteUrl (getEfsVolPath cfg isStaging ++ "/" ++ repoName)
      with u | t <;> rw [hs] at h
  · simp [Except.map] at h
  · match t with
    | .gitError m => simp [Except.map] at h; exact ⟨_, h.symm⟩
    | .jsError m => simp [Except.map] at h; exact ⟨_, h.symm⟩
    | .nonError => simp [Except.map] at h; exact ⟨_, h.symm⟩

/-- Error classification of the directory-existence stage of
`isValidGitRepo`. -/
theorem validStage1_error_class (env : GitEnv) (cfg : Config)
    (repoName branchName : String) (e : E)
    (h : (((getFilePathStats env cfg repoName ""
        (isStagingOf cfg branchName)).andThen (fun stats =>
          if !stats.isDirectory then fail (.boolErr false)
          else pur true)).orElse (fun error =>
          match error with
          | .notFound _ => fail (.boolErr false)
          | e => fail e)).result = .error e) :
    (∃ b, e = .boolErr b) ∨ ∃ m, e = .gitFs m := by
  obtain ⟨e2, hD, hE⟩ := orElse_result_error h
  have he2 : (∃ b, e2 = .boolErr b) ∨
      e2 = .notFound "File/Directory does not exist" ∨ ∃ m, e2 = .gitFs m := by
    rcases andThen_result_error hD with hF | ⟨s, hs, hF⟩
    · rcases getFilePathStats_error_class env cfg repoName ""
          (isStagingOf cfg branchName) _ hF with h' | ⟨m, h'⟩
      · exact Or.inr (Or.inl h')
      · exact Or.inr (Or.inr ⟨m, h'⟩)
    · split at hF
      · simp [GFS.fail] at hF
        exact Or.inl ⟨false, hF.symm⟩
      · simp [GFS.pur] at hF
  rcases he2 with ⟨b, rfl⟩ | rfl | ⟨m, rfl⟩
  · simp [GFS.fail] at hE
    exact Or.inl ⟨b, hE.symm⟩
  · simp [GFS.fail] at hE
    exact Or.inl ⟨false, hE.symm⟩
  · simp [GFS.fail] at hE
    exact Or.inr ⟨m, hE.symm⟩

/-- Every error escaping `isValidGitRepo` is a `GitFileSystemError`. -/
theorem isValidGitRepo_error_gitFs (env : GitEnv) (cfg : Config)
    (repoName branchName : String) (e : E)
    (h : (isValidGitRepo env cfg repoName branchName).result = .error e) :
    ∃ m, e = .gitFs m := by
  unfold isValidGitRepo at h
  obtain ⟨e1, hm1, hg1⟩ := orElse_result_error h
  have hee : e1 = e ∧ ∀ b : Bool, e1 ≠ .boolErr b := by
    match e1, hg1 with
    | .boolErr b, hg1 => simp [GFS.pur] at hg1
    | .notFound m', hg1 =>
      simp [GFS.fail] at hg1
      exact ⟨hg1, by simp⟩
    | .conflict m', hg1 =>
      simp [GFS.fail] at hg1
      exact ⟨hg1, by simp⟩
    | .badRequest m', hg1 =>
      simp [GFS.fail] at hg1
      exact ⟨hg1, by simp⟩
    | .gitFs m', hg1 =>
      simp [GFS.fail] at hg1
      exact ⟨hg1, by simp⟩
    | .needsRollback m', hg1 =>
      simp [GFS.fail] at hg1
      exact ⟨hg1, by simp⟩
    | .mediaType m', hg1 =>
      simp [GFS.fail] at hg1
      exact ⟨hg1, by simp⟩
  obtain ⟨he1, hnb⟩ := hee
  subst he1
  rcases andThen_result_error hm1 with hA | ⟨a4, _, hA⟩
  · rcases andThen_result_error hA with hB | ⟨a3, _, hB⟩
    · rcases andThen_result_error hB with hC | ⟨a2, _, hC⟩
      · rcases validStage1_error_class env cfg repoName branchName _ hC with
          ⟨b, hb⟩ | ⟨m, hm⟩
        · exact absurd hb (hnb b)
        · exact ⟨m, hm⟩
      · exact isGitInitialized_error_gitFs env cfg repoName true _ hC
    · split at hB
      · simp [GFS.fail] at hB
        exact absurd hB.symm (hnb false)
      · simp [GFS.pur] at hB
  · rcases andThen_result_error hA with hB | ⟨b4, _, hB⟩
    · exact isOriginRemoteCorrect_error_gitFs env cfg repoName true _ hB
    · split at hB
      · simp [GFS.fail] at hB
        exact absurd hB.symm (hnb false)
      · simp [GFS.pur] at hB

/-- Claim C4: `push` validates the repository first (an invalid repository
yields an error with no push attempted); with the repository valid and the
branch ensured, the push goes to `origin <branch>` with `--force` exactly
when the force flag is set; a failed push is retried exactly once (the
retry passes the same force flag and no refspec), and only if the retry
also fails is a `GitFileSystemError` surfaced; on success the working-tree
path is returned. -/
theorem claimC4_theorem :
    (∀ env cfg repoName branchName isForce,
      (isValidGitRepo env cfg repoName branchName).result = .ok false →
      (push env cfg repoName branchName isForce).result =
        .error (.gitFs ("Folder \"" ++ repoName ++
          "\" is not a valid Git repo")) ∧
      TraceAll (fun eff => !eff.isPushCmd)
        (push env cfg repoName branchName isForce)) ∧
    (∀ env cfg repoName branchName isForce (st : FileStats) (url : String),
      env.stat (getEfsVolPath cfg (isStagingOf cfg branchName) ++ "/" ++
        repoName ++ "/") = .ok st →
      st.isDirectory = true →
      env.checkIsRepo (getEfsVolPath cfg true ++ "/" ++ repoName) = .ok true →
      env.getRemoteUrl (getEfsVolPath cfg true ++ "/" ++ repoName) = .ok url →
      url ≠ "" →
      jsTrim url = "git@github.com:" ++ cfg.orgName ++ "/" ++ repoName ++ ".git" →
      env.currentBranch (getEfsVolPathFromBranch cfg branchName ++ "/" ++
        repoName) = .ok branchName →
      (env.pushCmd (getEfsVolPathFromBranch cfg branchName ++ "/" ++ repoName)
          (if isForce then jsSplit ("origin " ++ branchName) ' ' ++ ["--force"]
           else jsSplit ("origin " ++ branchName) ' ') = .ok () →
        push env cfg repoName branchName isForce =
          ⟨.ok (getEfsVolPathFromBranch cfg branchName ++ "/" ++ repoName),
           [.stat (getEfsVolPath cfg (isStagingOf cfg branchName) ++ "/" ++
              repoName ++ "/"),
            .checkIsRepo (getEfsVolPath cfg true ++ "/" ++ repoName),
            .getRemoteUrl (getEfsVolPath cfg true ++ "/" ++ repoName),
            .currentBranch (getEfsVolPathFromBranch cfg branchName ++ "/" ++
              repoName),
            .pushCmd (getEfsVolPathFromBranch cfg branchName ++ "/" ++ repoName)
              (if isForce then jsSplit ("origin " ++ branchName) ' ' ++ ["--force"]
               else jsSplit ("origin " ++ branchName) ' ')]⟩) ∧
      (∀ m1, env.pushCmd (getEfsVolPathFromBranch cfg branchName ++ "/" ++
          repoName)
          (if isForce then jsSplit ("origin " ++ branchName) ' ' ++ ["--force"]
           else jsSplit ("origin " ++ branchName) ' ') = .threw (.gitError m1) →
        (env.pushCmd (getEfsVolPathFromBranch cfg branchName ++ "/" ++ repoName)
            (if isForce then ["--force"] else ([] : List String)) = .ok () →
          push env cfg repoName branchName isForce =
            ⟨.ok (getEfsVolPathFromBranch cfg branchName ++ "/" ++ repoName),
             [.stat (getEfsVolPath cfg (isStagingOf cfg branchName) ++ "/" ++
                repoName ++ "/"),
              .checkIsRepo (getEfsVolPath cfg true ++ "/" ++ repoName),
              .getRemoteUrl (getEfsVolPath cfg true ++ "/" ++ repoName),
              .currentBranch (getEfsVolPathFromBranch cfg branchName ++ "/" ++
                repoName),
              .pushCmd (getEfsVolPathFromBranch cfg branchName ++ "/" ++ repoName)
                (if isForce then jsSplit ("origin " ++ branchName) ' ' ++ ["--force"]
                 else jsSplit ("origin " ++ branchName) ' '),
              .pushCmd (getEfsVolPathFromBranch cfg branchName ++ "/" ++ repoName)
                (if isForce then ["--force"] else ([] : List String))]⟩) ∧
        (∀ m2, env.pushCmd (getEfsVolPathFromBranch cfg branchName ++ "/" ++
            repoName)
            (if isForce then ["--force"] else ([] : List String)) =
            .threw (.gitError m2) →
          push env cfg repoName branchName isForce =
            ⟨.error (.gitFs "Unable to push latest changes of repo"),
             [.stat (getEfsVolPath cfg (isStagingOf cfg branchName) ++ "/" ++
                repoName ++ "/"),
              .checkIsRepo (getEfsVolPath cfg true ++ "/" ++ repoName),
              .getRemoteUrl (getEfsVolPath cfg true ++ "/" ++ repoName),
              .currentBranch (getEfsVolPathFromBranch cfg branchName ++ "/" ++
                repoName),
              .pushCmd (getEfsVolPathFromBranch cfg branchName ++ "/" ++ repoName)
                (if isForce then jsSplit ("origin " ++ branchName) ' ' ++ ["--force"]
                 else jsSplit ("origin " ++ branchName) ' '),
              .pushCmd (getEfsVolPathFromBranch cfg branchName ++ "/" ++ repoName)
                (if isForce then ["--force"] else ([] : List String))]⟩))) := by
  constructor
  · intro env cfg repoName branchName isForce hv
    constructor
    · unfold push
      rw [GFS.andThen_ok hv]
      simp [GFS.fail]
    · unfold push
      rw [GFS.andThen_ok hv]
      intro eff heff
      simp [GFS.fail] at heff
      exact @traceAll_isValidGitRepo (fun eff => !eff.isPushCmd) env cfg
        repoName branchName (fun _ => rfl) (fun _ => rfl) (fun _ => rfl)
        eff heff
  · intro env cfg repoName branchName isForce st url h1 h2 h3 h4 h5 h6 hcur
    have hv := isValidGitRepo_true env cfg repoName branchName h1 h2 h3 h4 h5 h6
    have hens := ensureCorrectBranch_same env cfg repoName branchName hcur
    refine ⟨?_, ?_⟩
    · intro hp1
      unfold push
      rw [hv]
      simp [hens, pushPrim_eq, hp1, GFS.orElse, GFS.map, Except.map,
        GFS.andThen]
    · intro m1 hp1
      refine ⟨?_, ?_⟩
      · intro hp2
        unfold push
        rw [hv]
        simp [hens, pushPrim_eq, hp1, hp2, GFS.orElse, GFS.map, Except.map,
          GFS.andThen]
      · intro m2 hp2
        unfold push
        rw [hv]
        simp [hens, pushPrim_eq, hp1, hp2, GFS.orElse, GFS.map, Except.map,
          GFS.andThen]

/-- Environment in which the refspec push fails once and the bare retry
push succeeds. -/
def envPushRetry : GitEnv :=
  { envHappy with
    pushCmd := fun _ args =>
      if args = ["origin", "staging"] then .threw (.gitError "remote hung up")
      else .ok () }

/-- Witness for claim C4: a clean push returns the working-tree path, a
failed push succeeds via the single retry, and an invalid repository is
rejected before any push. -/
theorem claimC4_witness :
    (push envHappy cfg0 "repo" "staging" false).result =
      .ok "/efs/staging/repo" ∧
    (push envPushRetry cfg0 "repo" "staging" false).result =
      .ok "/efs/staging/repo" ∧
    (push envWrongOrigin cfg0 "repo" "staging" true).result =
      .error (.gitFs "Folder \"repo\" is not a valid Git repo") := by
  refine ⟨?_, ?_, ?_⟩
  · have h := (claimC4_theorem.2 envHappy cfg0 "repo" "staging" false dirStats
      "git@github.com:isomerpages/repo.git" (by decide) (by decide)
      (by decide) (by decide) (by decide) (by decide) (by decide)).1
      (by decide)
    rw [h]
    decide
  · have h := ((claimC4_theorem.2 envPushRetry cfg0 "repo" "staging" false
      dirStats "git@github.com:isomerpages/repo.git" (by decide) (by decide)
      (by decide) (by decide) (by decide) (by decide) (by decide)).2
      "remote hung up" (by decide)).1 (by decide)
    rw [h]
    decide
  · exact (claimC4_theorem.1 envWrongOrigin cfg0 "repo" "staging" true
      (by decide)).1

/-- Claim C5: with the repository valid and the branch ensured, a `git
pull` failure whose message matches one of the four known-benign
conditions is swallowed and the pull succeeds with the working-tree path;
any other git-originated pull failure surfaces as a `GitFileSystemError`,
as does a non-Error throw. -/
theorem claimC5_theorem (env : GitEnv) (cfg : Config)
    (repoName branchName : String) (st : FileStats) (url : String)
    (h1 : env.stat (getEfsVolPath cfg (isStagingOf cfg branchName) ++ "/" ++
      repoName ++ "/") = .ok st)
    (h2 : st.isDirectory = true)
    (h3 : env.checkIsRepo (getEfsVolPath cfg true ++ "/" ++ repoName) = .ok true)
    (h4 : env.getRemoteUrl (getEfsVolPath cfg true ++ "/" ++ repoName) = .ok url)
    (h5 : url ≠ "")
    (h6 : jsTrim url = "git@github.com:" ++ cfg.orgName ++ "/" ++ repoName ++ ".git")
    (hcur : env.currentBranch (getEfsVolPathFromBranch cfg branchName ++ "/" ++
      repoName) = .ok branchName) :
    (∀ m, env.pullCmd (getEfsVolPathFromBranch cfg branchName ++ "/" ++
        repoName) = .threw (.gitError m) →
      isKnownBenignPullMsg m = true →
      (pull env cfg repoName branchName).result =
        .ok (getEfsVolPathFromBranch cfg branchName ++ "/" ++ repoName)) ∧
    (∀ m, env.pullCmd (getEfsVolPathFromBranch cfg branchName ++ "/" ++
        repoName) = .threw (.gitError m) →
      isKnownBenignPullMsg m = false →
      (pull env cfg repoName branchName).result =
        .error (.gitFs "Unable to pull latest changes of repo")) ∧
    (env.pullCmd (getEfsVolPathFromBranch cfg branchName ++ "/" ++ repoName) =
        .threw .nonError →
      (pull env cfg repoName branchName).result =
        .error (.gitFs "An unknown error occurred")) := by
  have hv := isValidGitRepo_true env cfg repoName branchName h1 h2 h3 h4 h5 h6
  have hens := ensureCorrectBranch_same env cfg repoName branchName hcur
  refine ⟨?_, ?_, ?_⟩
  · intro m hp hb
    unfold pull
    rw [hv]
    simp [hens, hp, hb, GFS.orElse, GFS.map, Except.map, GFS.andThen, GFS.pur,
      GFS.fail]
  · intro m hp hb
    unfold pull
    rw [hv]
    simp [hens, hp, hb, GFS.orElse, GFS.map, Except.map, GFS.andThen, GFS.pur,
      GFS.fail]
  · intro hp
    unfold pull
    rw [hv]
    simp [hens, hp, GFS.orElse, GFS.map, Except.map, GFS.andThen, GFS.pur,
      GFS.fail]

/-- Environment whose pull fails with a known-benign ref-lock message. -/
def envPullBenign : GitEnv :=
  { envHappy with
    pullCmd := fun _ =>
      .threw (.gitError
        "error: cannot lock ref 'refs/remotes/origin/staging'") }

/-- Environment whose pull fails with an unrecognised fatal message. -/
def envPullBad : GitEnv :=
  { envHappy with
    pullCmd := fun _ => .threw (.gitError "fatal: repository corrupt") }

/-- Witness for claim C5: a benign pull failure still succeeds with the
working-tree path, a non-benign one surfaces a `GitFileSystemError`. -/
theorem claimC5_witness :
    (pull envPullBenign cfg0 "repo" "staging").result =
      .ok "/efs/staging/repo" ∧
    (pull envPullBad cfg0 "repo" "staging").result =
      .error (.gitFs "Unable to pull latest changes of repo") := by
  constructor
  · have h := (claimC5_theorem envPullBenign cfg0 "repo" "staging" dirStats
      "git@github.com:isomerpages/repo.git" (by decide) (by decide)
      (by decide) (by decide) (by decide) (by decide) (by decide)).1
      "error: cannot lock ref 'refs/remotes/origin/staging'" (by decide)
      (by decide)
    rw [h]
    decide
  · have h := (claimC5_theorem envPullBad cfg0 "repo" "staging" dirStats
      "git@github.com:isomerpages/repo.git" (by decide) (by decide)
      (by decide) (by decide) (by decide) (by decide) (by decide)).2.1
      "fatal: repository corrupt" (by decide) (by decide)
    rw [h]

/-- Claim C6: a commit with fewer than 1 or more than 2 pathSpec entries
always fails with a `GitFileSystemError` and performs neither a `git add`
nor a `git commit`; pathSpecs of length 1 or 2 pass the guard and, in a
healthy repository, produce the commit. -/
theorem claimC6_theorem :
    (∀ env cfg repoName (pathSpec : List String) userId message branchName
        skipGitAdd,
      pathSpec.length < 1 ∨ pathSpec.length > 2 →
      (∃ m, (commit env cfg repoName pathSpec userId message branchName
        skipGitAdd).result = .error (.gitFs m)) ∧
      TraceAll (fun eff => !eff.isGitAdd && !eff.isGitCommit)
        (commit env cfg repoName pathSpec userId message branchName
          skipGitAdd)) ∧
    (∀ env cfg repoName (pathSpec : List String) userId message branchName
        (st : FileStats) (url sha : String),
      env.stat (getEfsVolPath cfg (isStagingOf cfg branchName) ++ "/" ++
        repoName ++ "/") = .ok st →
      st.isDirectory = true →
      env.checkIsRepo (getEfsVolPath cfg true ++ "/" ++ repoName) = .ok true →
      env.getRemoteUrl (getEfsVolPath cfg true ++ "/" ++ repoName) = .ok url →
      url ≠ "" →
      jsTrim url = "git@github.com:" ++ cfg.orgName ++ "/" ++ repoName ++ ".git" →
      env.currentBranch (getEfsVolPathFromBranch cfg branchName ++ "/" ++
        repoName) = .ok branchName →
      (pathSpec.length = 1 ∨ pathSpec.length = 2) →
      env.gitAdd (getEfsVolPathFromBranch cfg branchName ++ "/" ++ repoName)
        pathSpec = .ok () →
      env.gitCommit (getEfsVolPathFromBranch cfg branchName ++ "/" ++ repoName)
        ⟨message, userId,
         if pathSpec.length = 1 then (jsSplit (pathSpec.headD "") '/').getLast?
         else none⟩ = .ok sha →
      (commit env cfg repoName pathSpec userId message branchName
        false).result = .ok sha) := by
  constructor
  · intro env cfg repoName pathSpec userId message branchName skipGitAdd hbad
    have hguard : (decide (pathSpec.length < 1) ||
        decide (pathSpec.length > 2)) = true := by
      rcases hbad with h | h <;> simp [h]
    constructor
    · rcases hval : (isValidGitRepo env cfg repoName branchName).result
        with e | b
      · obtain ⟨m, rfl⟩ := isValidGitRepo_error_gitFs env cfg repoName
          branchName e hval
        refine ⟨m, ?_⟩
        unfold commit
        rw [GFS.andThen_error hval]
      · cases b
        · refine ⟨"Folder \"" ++ repoName ++ "\" is not a valid Git repo", ?_⟩
          unfold commit
          rw [GFS.andThen_ok hval]
          simp [GFS.fail]
        · refine ⟨"Invalid pathSpec length: " ++ toString pathSpec.length ++
            ". Expected 1 or 2", ?_⟩
          unfold commit
          rw [GFS.andThen_ok hval]
          simp only [hguard]
          simp [GFS.fail]
    · unfold commit
      apply traceAll_andThen
      · exact @traceAll_isValidGitRepo
          (fun eff => !eff.isGitAdd && !eff.isGitCommit) env cfg repoName
          branchName (fun _ => rfl) (fun _ => rfl) (fun _ => rfl)
      · intro b
        cases b
        · exact traceAll_fail _ _
        · simp only [hguard]
          exact traceAll_fail _ _
  · intro env cfg repoName pathSpec userId message branchName st url sha h1 h2
      h3 h4 h5 h6 hcur hlen hadd hcommit
    have hv := isValidGitRepo_true env cfg repoName branchName h1 h2 h3 h4 h5 h6
    have hens := ensureCorrectBranch_same env cfg repoName branchName hcur
    have hguard2 : ¬(pathSpec = [] ∨ 2 < pathSpec.length) := by
      rintro (rfl | hgt)
      · rcases hlen with h | h <;> simp at h
      · rcases hlen with h | h <;> omega
    rw [List.headD_eq_head?] at hcommit
    unfold commit
    rw [hv]
    simp [hguard2, hens, hadd, hcommit, GFS.orElse, GFS.map, Except.map,
      GFS.andThen, GFS.pur, GFS.fail]

/-- Witness for claim C6: an empty pathSpec is rejected with no git add or
commit, a three-entry pathSpec likewise, and a single-entry pathSpec
commits successfully. -/
theorem claimC6_witness :
    (∃ m, (commit envHappy cfg0 "repo" [] "u1" "msg" "staging" false).result =
      .error (.gitFs m)) ∧
    (∃ m, (commit envHappy cfg0 "repo" ["a", "b", "c"] "u1" "msg" "staging"
      false).result = .error (.gitFs m)) ∧
    (commit envHappy cfg0 "repo" ["pages/b.md"] "u1" "msg" "staging"
      false).result = .ok "newsha" := by
  refine ⟨?_, ?_, ?_⟩
  · exact (claimC6_theorem.1 envHappy cfg0 "repo" [] "u1" "msg" "staging"
      false (by decide)).1
  · exact (claimC6_theorem.1 envHappy cfg0 "repo" ["a", "b", "c"] "u1" "msg"
      "staging" false (by decide)).1
  · exact claimC6_theorem.2 envHappy cfg0 "repo" ["pages/b.md"] "u1" "msg"
      "staging" dirStats "git@github.com:isomerpages/repo.git" "newsha"
      (by decide) (by decide) (by decide) (by decide) (by decide) (by decide)
      (by decide) (by decide) (by decide) (by decide)

/-- Scenario: `commit` succeeds with `git add` in a healthy repository. -/
theorem commit_ok (env : GitEnv) (cfg : Config) (repoName : String)
    (pathSpec : List String) (userId message branchName : String)
    (st : FileStats) (url sha : String)
    (h1 : env.stat (getEfsVolPath cfg (isStagingOf cfg branchName) ++ "/" ++
      repoName ++ "/") = .ok st)
    (h2 : st.isDirectory = true)
    (h3 : env.checkIsRepo (getEfsVolPath cfg true ++ "/" ++ repoName) = .ok true)
    (h4 : env.getRemoteUrl (getEfsVolPath cfg true ++ "/" ++ repoName) = .ok url)
    (h5 : url ≠ "")
    (h6 : jsTrim url = "git@github.com:" ++ cfg.orgName ++ "/" ++ repoName ++ ".git")
    (hcur : env.currentBranch (getEfsVolPathFromBranch cfg branchName ++ "/" ++
      repoName) = .ok branchName)
    (hne : pathSpec ≠ []) (hle : pathSpec.length ≤ 2)
    (hadd : env.gitAdd (getEfsVolPathFromBranch cfg branchName ++ "/" ++
      repoName) pathSpec = .ok ())
    (hcommit : env.gitCommit (getEfsVolPathFromBranch cfg branchName ++ "/" ++
      repoName)
      ⟨message, userId,
       if pathSpec.length = 1 then (jsSplit (pathSpec.headD "") '/').getLast?
       else none⟩ = .ok sha) :
    commit env cfg repoName pathSpec userId message branchName false =
      ⟨.ok sha,
       [.stat (getEfsVolPath cfg (isStagingOf cfg branchName) ++ "/" ++
          repoName ++ "/"),
        .checkIsRepo (getEfsVolPath cfg true ++ "/" ++ repoName),
        .getRemoteUrl (getEfsVolPath cfg true ++ "/" ++ repoName),
        .currentBranch (getEfsVolPathFromBranch cfg branchName ++ "/" ++
          repoName),
        .gitAdd (getEfsVolPathFromBranch cfg branchName ++ "/" ++ repoName)
          pathSpec,
        .gitCommit (getEfsVolPathFromBranch cfg branchName ++ "/" ++ repoName)
          ⟨message, userId,
           if pathSpec.length = 1 then (jsSplit (pathSpec.headD "") '/').getLast?
           else none⟩]⟩ := by
  have hv := isValidGitRepo_true env cfg repoName branchName h1 h2 h3 h4 h5 h6
  have hens := ensureCorrectBranch_same env cfg repoName branchName hcur
  have hguard2 : ¬(pathSpec = [] ∨ 2 < pathSpec.length) := by
    rintro (rfl | hgt)
    · exact hne rfl
    · omega
  rw [List.headD_eq_head?] at hcommit
  unfold commit
  rw [hv]
  simp [hguard2, hens, hadd, hcommit, GFS.orElse, GFS.map, Except.map,
    GFS.andThen, GFS.pur, GFS.fail, List.headD_eq_head?]

/-- Scenario: `createCore` aborts with a Conflict error when the target
file already exists; the directory and file stats are the only effects. -/
theorem createCore_conflict (env : GitEnv) (cfg : Config)
    (repoName userId content directoryName fileName : String)
    (encoding : Encoding) (branchName fp : String) {stD stF : FileStats}
    (hfp : fp = if directoryName ≠ "" then directoryName ++ "/" ++ fileName
      else fileName)
    (hdir : env.stat (getEfsVolPath cfg (isStagingOf cfg branchName) ++ "/" ++
      repoName ++ "/" ++ directoryName) = .ok stD)
    (hdird : stD.isDirectory = true)
    (hfile : env.stat (getEfsVolPath cfg (isStagingOf cfg branchName) ++ "/" ++
      repoName ++ "/" ++ fp) = .ok stF)
    (hfilef : stF.isFile = true) :
    createCore env cfg repoName userId content directoryName fileName encoding
      branchName =
      ⟨.error (.conflict ("File " ++ fp ++ " already exists in repo " ++
        repoName)),
       [.stat (getEfsVolPath cfg (isStagingOf cfg branchName) ++ "/" ++
          repoName ++ "/" ++ directoryName),
        .stat (getEfsVolPath cfg (isStagingOf cfg branchName) ++ "/" ++
          repoName ++ "/" ++ fp)]⟩ := by
  unfold createCore
  simp only [← hfp]
  simp [getFilePathStats_eq, hdir, hdird, hfile, hfilef, GFS.orElse,
    GFS.map, Except.map, GFS.andThen, GFS.pur, GFS.fail]

/-- Scenario: the parent directory is absent, so `createCore` creates it,
then writes the file and commits; the mkdir effect precedes the write. -/
theorem createCore_createsDir (env : GitEnv) (cfg : Config)
    (repoName userId content directoryName fileName : String)
    (encoding : Encoding) (branchName fp : String) {tD tF : Thrown}
    {st : FileStats} {url sha : String}
    (hfp : fp = if directoryName ≠ "" then directoryName ++ "/" ++ fileName
      else fileName)
    (hdir : env.stat (getEfsVolPath cfg (isStagingOf cfg branchName) ++ "/" ++
      repoName ++ "/" ++ directoryName) = .threw tD)
    (htD : tD.isErrorWith "ENOENT" = true)
    (hmkdir : env.mkdir (getEfsVolPathFromBranch cfg branchName ++ "/" ++
      repoName ++ "/" ++ directoryName ++ "/") false = .ok ())
    (hfile : env.stat (getEfsVolPath cfg (isStagingOf cfg branchName) ++ "/" ++
      repoName ++ "/" ++ fp) = .threw tF)
    (htF : tF.isErrorWith "ENOENT" = true)
    (hwrite : env.writeFile (getEfsVolPathFromBranch cfg branchName ++ "/" ++
      repoName ++ "/" ++ fp) content encoding = .ok ())
    (h1 : env.stat (getEfsVolPath cfg (isStagingOf cfg branchName) ++ "/" ++
      repoName ++ "/") = .ok st)
    (h2 : st.isDirectory = true)
    (h3 : env.checkIsRepo (getEfsVolPath cfg true ++ "/" ++ repoName) = .ok true)
    (h4 : env.getRemoteUrl (getEfsVolPath cfg true ++ "/" ++ repoName) = .ok url)
    (h5 : url ≠ "")
    (h6 : jsTrim url = "git@github.com:" ++ cfg.orgName ++ "/" ++ repoName ++ ".git")
    (hcur : env.currentBranch (getEfsVolPathFromBranch cfg branchName ++ "/" ++
      repoName) = .ok branchName)
    (hadd : env.gitAdd (getEfsVolPathFromBranch cfg branchName ++ "/" ++
      repoName) [getEfsVolPathFromBranch cfg branchName ++ "/" ++ repoName ++
      "/" ++ fp] = .ok ())
    (hcommit : env.gitCommit (getEfsVolPathFromBranch cfg branchName ++ "/" ++
      repoName)
      ⟨"Create file: " ++ fp, userId,
       (jsSplit (getEfsVolPathFromBranch cfg branchName ++ "/" ++ repoName ++
         "/" ++ fp) '/').getLast?⟩ = .ok sha) :
    createCore env cfg repoName userId content directoryName fileName encoding
      branchName =
      ⟨.ok ⟨sha⟩,
       [.stat (getEfsVolPath cfg (isStagingOf cfg branchName) ++ "/" ++
          repoName ++ "/" ++ directoryName),
        .mkdir (getEfsVolPathFromBranch cfg branchName ++ "/" ++ repoName ++
          "/" ++ directoryName ++ "/") false,
        .stat (getEfsVolPath cfg (isStagingOf cfg branchName) ++ "/" ++
          repoName ++ "/" ++ fp),
        .writeFile (getEfsVolPathFromBranch cfg branchName ++ "/" ++ repoName ++
          "/" ++ fp) content encoding,
        .stat (getEfsVolPath cfg (isStagingOf cfg branchName) ++ "/" ++
          repoName ++ "/"),
        .checkIsRepo (getEfsVolPath cfg true ++ "/" ++ repoName),
        .getRemoteUrl (getEfsVolPath cfg true ++ "/" ++ repoName),
        .currentBranch (getEfsVolPathFromBranch cfg branchName ++ "/" ++
          repoName),
        .gitAdd (getEfsVolPathFromBranch cfg branchName ++ "/" ++ repoName)
          [getEfsVolPathFromBranch cfg branchName ++ "/" ++ repoName ++ "/" ++ fp],
        .gitCommit (getEfsVolPathFromBranch cfg branchName ++ "/" ++ repoName)
          ⟨"Create file: " ++ fp, userId,
           (jsSplit (getEfsVolPathFromBranch cfg branchName ++ "/" ++ repoName ++
             "/" ++ fp) '/').getLast?⟩]⟩ := by
  have hcmt := commit_ok env cfg repoName
    [getEfsVolPathFromBranch cfg branchName ++ "/" ++ repoName ++ "/" ++ fp]
    userId ("Create file: " ++ fp) branchName st url sha h1 h2 h3 h4 h5 h6
    hcur (by simp) (by simp) hadd (by simpa using hcommit)
  unfold createCore
  simp only [← hfp]
  simp [getFilePathStats_eq, hdir, htD, hmkdir, hfile, htF, hwrite, hcmt,
    GFS.orElse, GFS.map, Except.map, GFS.andThen, GFS.pur, GFS.fail]

/-- Scenario: the anchor prefix of `create` succeeds. -/
theorem createPre_ok (env : GitEnv) (cfg : Config)
    (repoName branchName : String) (flds : DefaultLogFields)
    (hlog : env.gitLog (getEfsVolPathFromBranch cfg branchName ++ "/" ++
      repoName) branchName = .ok ⟨some flds⟩)
    (hsha : flds.hash ≠ "") :
    createPre env cfg repoName branchName =
      ⟨.ok flds.hash,
       [.gitLog (getEfsVolPathFromBranch cfg branchName ++ "/" ++ repoName)
         branchName]⟩ := by
  unfold createPre
  rw [getLatestCommitOfBranch_ok env cfg repoName branchName hlog]
  simp [GFS.andThen, GFS.pur, GFS.fail, hsha]

/-- Claim C7: `create` rejects an already-existing target file with a
Conflict error before any disk mutation or commit; when the parent
directory is absent it is created (the mkdir effect precedes the file
write), the file is written with the requested encoding, and the new
commit SHA is returned. -/
theorem claimC7_theorem :
    (∀ env cfg repoName userId content directoryName fileName encoding
        branchName fp (flds : DefaultLogFields) (stD stF : FileStats),
      fp = (if directoryName ≠ "" then directoryName ++ "/" ++ fileName
        else fileName) →
      env.gitLog (getEfsVolPathFromBranch cfg branchName ++ "/" ++ repoName)
        branchName = .ok ⟨some flds⟩ →
      flds.hash ≠ "" →
      env.stat (getEfsVolPath cfg (isStagingOf cfg branchName) ++ "/" ++
        repoName ++ "/" ++ directoryName) = .ok stD →
      stD.isDirectory = true →
      env.stat (getEfsVolPath cfg (isStagingOf cfg branchName) ++ "/" ++
        repoName ++ "/" ++ fp) = .ok stF →
      stF.isFile = true →
      (create env cfg repoName userId content directoryName fileName encoding
        branchName).result =
        .error (.conflict ("File " ++ fp ++ " already exists in repo " ++
          repoName)) ∧
      TraceAll notMutating
        (create env cfg repoName userId content directoryName fileName
          encoding branchName)) ∧
    (∀ env cfg repoName userId content directoryName fileName encoding
        branchName fp (flds : DefaultLogFields) (tD tF : Thrown)
        (st : FileStats) (url sha : String),
      fp = (if directoryName ≠ "" then directoryName ++ "/" ++ fileName
        else fileName) →
      env.gitLog (getEfsVolPathFromBranch cfg branchName ++ "/" ++ repoName)
        branchName = .ok ⟨some flds⟩ →
      flds.hash ≠ "" →
      env.stat (getEfsVolPath cfg (isStagingOf cfg branchName) ++ "/" ++
        repoName ++ "/" ++ directoryName) = .threw tD →
      tD.isErrorWith "ENOENT" = true →
      env.mkdir (getEfsVolPathFromBranch cfg branchName ++ "/" ++ repoName ++
        "/" ++ directoryName ++ "/") false = .ok () →
      env.stat (getEfsVolPath cfg (isStagingOf cfg branchName) ++ "/" ++
        repoName ++ "/" ++ fp) = .threw tF →
      tF.isErrorWith "ENOENT" = true →
      env.writeFile (getEfsVolPathFromBranch cfg branchName ++ "/" ++
        repoName ++ "/" ++ fp) content encoding = .ok () →
      env.stat (getEfsVolPath cfg (isStagingOf cfg branchName) ++ "/" ++
        repoName ++ "/") = .ok st →
      st.isDirectory = true →
      env.checkIsRepo (getEfsVolPath cfg true ++ "/" ++ repoName) = .ok true →
      env.getRemoteUrl (getEfsVolPath cfg true ++ "/" ++ repoName) = .ok url →
      url ≠ "" →
      jsTrim url = "git@github.com:" ++ cfg.orgName ++ "/" ++ repoName ++ ".git" →
      env.currentBranch (getEfsVolPathFromBranch cfg branchName ++ "/" ++
        repoName) = .ok branchName →
      env.gitAdd (getEfsVolPathFromBranch cfg branchName ++ "/" ++ repoName)
        [getEfsVolPathFromBranch cfg branchName ++ "/" ++ repoName ++ "/" ++ fp] =
        .ok () →
      env.gitCommit (getEfsVolPathFromBranch cfg branchName ++ "/" ++ repoName)
        ⟨"Create file: " ++ fp, userId,
         (jsSplit (getEfsVolPathFromBranch cfg branchName ++ "/" ++ repoName ++
           "/" ++ fp) '/').getLast?⟩ = .ok sha →
      create env cfg repoName userId content directoryName fileName encoding
        branchName =
        ⟨.ok ⟨sha⟩,
         [.gitLog (getEfsVolPathFromBranch cfg branchName ++ "/" ++ repoName)
            branchName,
          .stat (getEfsVolPath cfg (isStagingOf cfg branchName) ++ "/" ++
            repoName ++ "/" ++ directoryName),
          .mkdir (getEfsVolPathFromBranch cfg branchName ++ "/" ++ repoName ++
            "/" ++ directoryName ++ "/") false,
          .stat (getEfsVolPath cfg (isStagingOf cfg branchName) ++ "/" ++
            repoName ++ "/" ++ fp),
          .writeFile (getEfsVolPathFromBranch cfg branchName ++ "/" ++
            repoName ++ "/" ++ fp) content encoding,
          .stat (getEfsVolPath cfg (isStagingOf cfg branchName) ++ "/" ++
            repoName ++ "/"),
          .checkIsRepo (getEfsVolPath cfg true ++ "/" ++ repoName),
          .getRemoteUrl (getEfsVolPath cfg true ++ "/" ++ repoName),
          .currentBranch (getEfsVolPathFromBranch cfg branchName ++ "/" ++
            repoName),
          .gitAdd (getEfsVolPathFromBranch cfg branchName ++ "/" ++ repoName)
            [getEfsVolPathFromBranch cfg branchName ++ "/" ++ repoName ++
              "/" ++ fp],
          .gitCommit (getEfsVolPathFromBranch cfg branchName ++ "/" ++ repoName)
            ⟨"Create file: " ++ fp, userId,
             (jsSplit (getEfsVolPathFromBranch cfg branchName ++ "/" ++
               repoName ++ "/" ++ fp) '/').getLast?⟩]⟩) := by
  constructor
  · intro env cfg repoName userId content directoryName fileName encoding
      branchName fp flds stD stF hfp hlog hsha hdir hdird hfile hfilef
    have hpre := createPre_ok env cfg repoName branchName flds hlog hsha
    have hcore := createCore_conflict env cfg repoName userId content
      directoryName fileName encoding branchName fp hfp hdir hdird hfile
      hfilef
    have heq := mutGuard_plain_branch env cfg repoName branchName
      (createPre env cfg repoName branchName)
      (fun _ => createCore env cfg repoName userId content directoryName
        fileName encoding branchName) flds.hash _ (by rw [hpre])
      (by rw [hcore]) (by intro m hm; exact E.noConfusion hm)
    rw [create_decomp, heq]
    constructor
    · rfl
    · intro eff heff
      rw [hpre, hcore] at heff
      simp only [List.cons_append, List.nil_append, List.mem_cons,
        List.not_mem_nil, or_false] at heff
      rcases heff with rfl | rfl | rfl <;> rfl
  · intro env cfg repoName userId content directoryName fileName encoding
      branchName fp flds tD tF st url sha hfp hlog hsha hdir htD hmkdir hfile
      htF hwrite h1 h2 h3 h4 h5 h6 hcur hadd hcommit
    have hpre := createPre_ok env cfg repoName branchName flds hlog hsha
    have hcore := createCore_createsDir env cfg repoName userId content
      directoryName fileName encoding branchName fp hfp hdir htD hmkdir hfile
      htF hwrite h1 h2 h3 h4 h5 h6 hcur hadd hcommit
    have heq := mutGuard_ok_branch env cfg repoName branchName
      (createPre env cfg repoName branchName)
      (fun _ => createCore env cfg repoName userId content directoryName
        fileName encoding branchName) flds.hash _ (by rw [hpre])
      (by rw [hcore])
    rw [create_decomp, heq, hpre, hcore]
    rfl

/-- Like `envHappy` but the directory `newdir` and its target file are
absent (ENOENT), so `create` must create the directory first. -/
def envCreateDir : GitEnv :=
  { envHappy with
    stat := fun p =>
      if p = "/efs/staging/repo/newdir" then .threw (.jsError "ENOENT")
      else if p = "/efs/staging/repo/newdir/a.md" then .threw (.jsError "ENOENT")
      else .ok dirStats }

/-- Witness for C7: a concrete existing file yields the Conflict error with
no disk mutation; a concrete absent directory is created before the file
write and the new commit SHA is returned. -/
theorem claimC7_witness :
    ((create envHappy cfg0 "repo" "u1" "hello" "pages" "b.md" .utf8
        "staging").result =
      .error (.conflict ("File " ++ "pages/b.md" ++
        " already exists in repo " ++ "repo")) ∧
     TraceAll notMutating
       (create envHappy cfg0 "repo" "u1" "hello" "pages" "b.md" .utf8
         "staging")) ∧
    create envCreateDir cfg0 "repo" "u1" "hello" "newdir" "a.md" .base64
        "staging" =
      ⟨.ok ⟨"newsha"⟩,
       [.gitLog "/efs/staging/repo" "staging",
        .stat "/efs/staging/repo/newdir",
        .mkdir "/efs/staging/repo/newdir/" false,
        .stat "/efs/staging/repo/newdir/a.md",
        .writeFile "/efs/staging/repo/newdir/a.md" "hello" .base64,
        .stat "/efs/staging/repo/",
        .checkIsRepo "/efs/staging/repo",
        .getRemoteUrl "/efs/staging/repo",
        .currentBranch "/efs/staging/repo",
        .gitAdd "/efs/staging/repo" ["/efs/staging/repo/newdir/a.md"],
        .gitCommit "/efs/staging/repo"
          ⟨"Create file: newdir/a.md", "u1", some "a.md"⟩]⟩ := by
  constructor
  · exact claimC7_theorem.1 envHappy cfg0 "repo" "u1" "hello" "pages" "b.md"
      .utf8 "staging" "pages/b.md" ⟨"au", "ae", "d", "m", "sha0"⟩ dirStats
      fileStats (by decide) (by decide) (by decide) (by decide) (by decide)
      (by decide) (by decide)
  · exact claimC7_theorem.2 envCreateDir cfg0 "repo" "u1" "hello" "newdir"
      "a.md" .base64 "staging" "newdir/a.md" ⟨"au", "ae", "d", "m", "sha0"⟩
      (.jsError "ENOENT") (.jsError "ENOENT") dirStats
      "git@github.com:isomerpages/repo.git" "newsha" (by decide) (by decide)
      (by decide) (by decide) (by decide) (by decide) (by decide) (by decide)
      (by decide) (by decide) (by decide) (by decide) (by decide) (by decide)
      (by decide) (by decide) (by decide) (by decide)

/-- Scenario: in a healthy repo on the right branch, a first-try
successful push returns the working-tree path with a single push effect. -/
theorem push_ok (env : GitEnv) (cfg : Config) (repoName branchName : String)
    (isForce : Bool) (st : FileStats) (url : String)
    (h1 : env.stat (getEfsVolPath cfg (isStagingOf cfg branchName) ++ "/" ++
      repoName ++ "/") = .ok st)
    (h2 : st.isDirectory = true)
    (h3 : env.checkIsRepo (getEfsVolPath cfg true ++ "/" ++ repoName) = .ok true)
    (h4 : env.getRemoteUrl (getEfsVolPath cfg true ++ "/" ++ repoName) = .ok url)
    (h5 : url ≠ "")
    (h6 : jsTrim url = "git@github.com:" ++ cfg.orgName ++ "/" ++ repoName ++ ".git")
    (hcur : env.currentBranch (getEfsVolPathFromBranch cfg branchName ++ "/" ++
      repoName) = .ok branchName)
    (hp : env.pushCmd (getEfsVolPathFromBranch cfg branchName ++ "/" ++ repoName)
      (if isForce then jsSplit ("origin " ++ branchName) ' ' ++ ["--force"]
       else jsSplit ("origin " ++ branchName) ' ') = .ok ()) :
    push env cfg repoName branchName isForce =
      ⟨.ok (getEfsVolPathFromBranch cfg branchName ++ "/" ++ repoName),
       [.stat (getEfsVolPath cfg (isStagingOf cfg branchName) ++ "/" ++
          repoName ++ "/"),
        .checkIsRepo (getEfsVolPath cfg true ++ "/" ++ repoName),
        .getRemoteUrl (getEfsVolPath cfg true ++ "/" ++ repoName),
        .currentBranch (getEfsVolPathFromBranch cfg branchName ++ "/" ++
          repoName),
        .pushCmd (getEfsVolPathFromBranch cfg branchName ++ "/" ++ repoName)
          (if isForce then jsSplit ("origin " ++ branchName) ' ' ++ ["--force"]
           else jsSplit ("origin " ++ branchName) ' ')]⟩ := by
  have hv := isValidGitRepo_true env cfg repoName branchName h1 h2 h3 h4 h5 h6
  have hens := ensureCorrectBranch_same env cfg repoName branchName hcur
  unfold push
  rw [hv]
  simp [hens, pushPrim_eq, hp, GFS.orElse, GFS.map, Except.map, GFS.andThen]

/-- Claim C9: `updateRepoState` validates the caller-supplied SHA (via
`git cat-file -t`) before any mutation: a SHA the branch does not know
yields a BadRequest error with no hard reset and no push in the trace;
for a valid SHA the branch is hard-reset to it and then force-pushed to
origin. -/
theorem claimC9_theorem :
    ∀ env cfg repoName branchName sha (st : FileStats) (url : String),
      env.stat (getEfsVolPath cfg (isStagingOf cfg branchName) ++ "/" ++
        repoName ++ "/") = .ok st →
      st.isDirectory = true →
      env.checkIsRepo (getEfsVolPath cfg true ++ "/" ++ repoName) = .ok true →
      env.getRemoteUrl (getEfsVolPath cfg true ++ "/" ++ repoName) = .ok url →
      url ≠ "" →
      jsTrim url = "git@github.com:" ++ cfg.orgName ++ "/" ++ repoName ++ ".git" →
      env.currentBranch (getEfsVolPathFromBranch cfg branchName ++ "/" ++
        repoName) = .ok branchName →
      ((∀ m, env.catFile (getEfsVolPathFromBranch cfg branchName ++ "/" ++
          repoName) sha = .threw (.gitError m) →
        (updateRepoState env cfg repoName branchName sha).result =
          .error (.badRequest "The provided SHA is invalid") ∧
        TraceAll (fun eff => !eff.isResetHard && !eff.isPushCmd)
          (updateRepoState env cfg repoName branchName sha)) ∧
       (∀ t, env.catFile (getEfsVolPathFromBranch cfg branchName ++ "/" ++
          repoName) sha = .ok t →
        env.resetHard (getEfsVolPathFromBranch cfg branchName ++ "/" ++
          repoName) sha = .ok () →
        env.pushCmd (getEfsVolPathFromBranch cfg branchName ++ "/" ++ repoName)
          (jsSplit ("origin " ++ branchName) ' ' ++ ["--force"]) = .ok () →
        updateRepoState env cfg repoName branchName sha =
          ⟨.ok (),
           [.stat (getEfsVolPath cfg (isStagingOf cfg branchName) ++ "/" ++
              repoName ++ "/"),
            .checkIsRepo (getEfsVolPath cfg true ++ "/" ++ repoName),
            .getRemoteUrl (getEfsVolPath cfg true ++ "/" ++ repoName),
            .currentBranch (getEfsVolPathFromBranch cfg branchName ++ "/" ++
              repoName),
            .catFile (getEfsVolPathFromBranch cfg branchName ++ "/" ++
              repoName) sha,
            .resetHard (getEfsVolPathFromBranch cfg branchName ++ "/" ++
              repoName) sha,
            .stat (getEfsVolPath cfg (isStagingOf cfg branchName) ++ "/" ++
              repoName ++ "/"),
            .checkIsRepo (getEfsVolPath cfg true ++ "/" ++ repoName),
            .getRemoteUrl (getEfsVolPath cfg true ++ "/" ++ repoName),
            .currentBranch (getEfsVolPathFromBranch cfg branchName ++ "/" ++
              repoName),
            .pushCmd (getEfsVolPathFromBranch cfg branchName ++ "/" ++ repoName)
              (jsSplit ("origin " ++ branchName) ' ' ++ ["--force"])]⟩)) := by
  intro env cfg repoName branchName sha st url h1 h2 h3 h4 h5 h6 hcur
  have hv := isValidGitRepo_true env cfg repoName branchName h1 h2 h3 h4 h5 h6
  have hens := ensureCorrectBranch_same env cfg repoName branchName hcur
  constructor
  · intro m hcat
    constructor
    · unfold updateRepoState
      simp [hv, hens, hcat, GFS.andThen, GFS.prim, GFS.fail, GFS.map, GFS.pur,
        Except.map]
    · unfold updateRepoState
      intro eff heff
      simp [hv, hens, hcat, GFS.andThen, GFS.prim, GFS.fail, GFS.map,
        GFS.pur, Except.map] at heff
      rcases heff with rfl | rfl | rfl | rfl | rfl <;> rfl
  · intro t hcat hreset hpush
    have hpok := push_ok env cfg repoName branchName true st url h1 h2 h3 h4
      h5 h6 hcur (by simpa using hpush)
    unfold updateRepoState
    simp [hv, hens, hcat, hreset, hpok, GFS.andThen, GFS.prim, GFS.map,
      GFS.pur, Except.map]

/-- Like `envHappy` but `git cat-file` rejects the SHA, as for a SHA the
branch's history does not contain. -/
def envBadSha : GitEnv :=
  { envHappy with catFile := fun _ _ => .threw (.gitError "bad object") }

/-- Witness for C9: a rejected SHA yields BadRequest with no reset and no
push; a valid SHA hard-resets then force-pushes. -/
theorem claimC9_witness :
    ((updateRepoState envBadSha cfg0 "repo" "staging" "deadbeef").result =
       .error (.badRequest "The provided SHA is invalid") ∧
     TraceAll (fun eff => !eff.isResetHard && !eff.isPushCmd)
       (updateRepoState envBadSha cfg0 "repo" "staging" "deadbeef")) ∧
    updateRepoState envHappy cfg0 "repo" "staging" "sha0" =
      ⟨.ok (),
       [.stat "/efs/staging/repo/",
        .checkIsRepo "/efs/staging/repo",
        .getRemoteUrl "/efs/staging/repo",
        .currentBranch "/efs/staging/repo",
        .catFile "/efs/staging/repo" "sha0",
        .resetHard "/efs/staging/repo" "sha0",
        .stat "/efs/staging/repo/",
        .checkIsRepo "/efs/staging/repo",
        .getRemoteUrl "/efs/staging/repo",
        .currentBranch "/efs/staging/repo",
        .pushCmd "/efs/staging/repo" ["origin", "staging", "--force"]]⟩ := by
  constructor
  · exact (claimC9_theorem envBadSha cfg0 "repo" "staging" "deadbeef" dirStats
      "git@github.com:isomerpages/repo.git" (by decide) (by decide) (by decide)
      (by decide) (by decide) (by decide) (by decide)).1 "bad object"
      (by decide)
  · exact (claimC9_theorem envHappy cfg0 "repo" "staging" "sha0" dirStats
      "git@github.com:isomerpages/repo.git" (by decide) (by decide) (by decide)
      (by decide) (by decide) (by decide) (by decide)).2 "commit" (by decide)
      (by decide) (by decide)

/-- Environment for the staging-lite validity check: every directory
exists, the staging-lite working tree is an initialized repo with the
canonical origin remote, but the STAGING working tree is not a repo. -/
def envC3 : GitEnv :=
  { envHappy with
    stat := fun _ => .ok dirStats,
    checkIsRepo := fun p =>
      if p = "/efs/staging/repo" then .ok false else .ok true }

/-- Counterexample to claim C3: for branch `staging-lite` the branch's own
working tree satisfies (a) the root exists and is a directory, (b) it is an
initialized Git repository, and (c) its origin remote URL is canonical, yet
`isValidGitRepo` returns `false`, because `isGitInitialized` and
`isOriginRemoteCorrect` are called without the staging flag and so consult
the STAGING tree, which here is not a repo. -/
theorem claimC3_counterexample :
    envC3.stat "/efs/staging-lite/repo/" = .ok dirStats ∧
    dirStats.isDirectory = true ∧
    envC3.checkIsRepo "/efs/staging-lite/repo" = .ok true ∧
    envC3.getRemoteUrl "/efs/staging-lite/repo" =
      .ok ("git@github.com:" ++ cfg0.orgName ++ "/" ++ "repo" ++ ".git") ∧
    (isValidGitRepo envC3 cfg0 "repo" "staging-lite").result = .ok false := by
  decide

/-- Claim C3 (amended): `isValidGitRepo(repo, branch)` checks (a) that the
BRANCH's working-tree root exists and is a directory, but checks (b)
initialized-repo and (c) canonical-origin against the STAGING working tree
regardless of the branch, because the staging flag of `isGitInitialized`
and `isOriginRemoteCorrect` is left at its `true` default.  All three
passing yields `true`; a missing root (ENOENT), a staging tree that is not
a repo, or a non-canonical staging remote collapses to `false`; any other
stat error propagates as a GitFileSystemError. -/
theorem claimC3_amended :
    (∀ env cfg repoName branchName (st : FileStats) (url : String),
      env.stat (getEfsVolPath cfg (isStagingOf cfg branchName) ++ "/" ++
        repoName ++ "/") = .ok st →
      st.isDirectory = true →
      env.checkIsRepo (getEfsVolPath cfg true ++ "/" ++ repoName) = .ok true →
      env.getRemoteUrl (getEfsVolPath cfg true ++ "/" ++ repoName) = .ok url →
      url ≠ "" →
      jsTrim url = "git@github.com:" ++ cfg.orgName ++ "/" ++ repoName ++ ".git" →
      (isValidGitRepo env cfg repoName branchName).result = .ok true) ∧
    (∀ env cfg repoName branchName (st : FileStats),
      env.stat (getEfsVolPath cfg (isStagingOf cfg branchName) ++ "/" ++
        repoName ++ "/") = .ok st →
      st.isDirectory = true →
      env.checkIsRepo (getEfsVolPath cfg true ++ "/" ++ repoName) = .ok false →
      isValidGitRepo env cfg repoName branchName =
        ⟨.ok false,
         [.stat (getEfsVolPath cfg (isStagingOf cfg branchName) ++ "/" ++
            repoName ++ "/"),
          .checkIsRepo (getEfsVolPath cfg true ++ "/" ++ repoName)]⟩) ∧
    (∀ env cfg repoName branchName (st : FileStats) (url : String),
      env.stat (getEfsVolPath cfg (isStagingOf cfg branchName) ++ "/" ++
        repoName ++ "/") = .ok st →
      st.isDirectory = true →
      env.checkIsRepo (getEfsVolPath cfg true ++ "/" ++ repoName) = .ok true →
      env.getRemoteUrl (getEfsVolPath cfg true ++ "/" ++ repoName) = .ok url →
      (url = "" ∨ jsTrim url ≠
        "git@github.com:" ++ cfg.orgName ++ "/" ++ repoName ++ ".git") →
      (isValidGitRepo env cfg repoName branchName).result = .ok false) ∧
    (∀ env cfg repoName branchName (t : Thrown),
      env.stat (getEfsVolPath cfg (isStagingOf cfg branchName) ++ "/" ++
        repoName ++ "/") = .threw t →
      (t.isErrorWith "ENOENT" = true →
        (isValidGitRepo env cfg repoName branchName).result = .ok false) ∧
      (t.isErrorWith "ENOENT" = false → t.isError = true →
        (isValidGitRepo env cfg repoName branchName).result =
          .error (.gitFs "Unable to read file/directory"))) := by
  refine ⟨?_, ?_, ?_, ?_⟩
  · intro env cfg repoName branchName st url h1 h2 h3 h4 h5 h6
    rw [isValidGitRepo_true env cfg repoName branchName h1 h2 h3 h4 h5 h6]
  · intro env cfg repoName branchName st h1 h2 h3
    unfold isValidGitRepo
    simp [getFilePathStats_eq, isGitInitialized_eq, h1, h2, h3, GFS.orElse,
      GFS.andThen, GFS.map, GFS.pur, GFS.fail]
  · intro env cfg repoName branchName st url h1 h2 h3 h4 h5
    unfold isValidGitRepo
    rcases h5 with h5 | h5
    · subst h5
      simp [getFilePathStats_eq, isGitInitialized_eq, isOriginRemoteCorrect_eq,
        h1, h2, h3, h4, Except.map, GFS.orElse, GFS.andThen, GFS.map, GFS.pur,
        GFS.fail]
    · simp [getFilePathStats_eq, isGitInitialized_eq, isOriginRemoteCorrect_eq,
        h1, h2, h3, h4, h5, Except.map, GFS.orElse, GFS.andThen, GFS.map,
        GFS.pur, GFS.fail]
  · intro env cfg repoName branchName t h1
    constructor
    · intro hE
      unfold isValidGitRepo
      simp [getFilePathStats_eq, h1, hE, GFS.orElse, GFS.andThen, GFS.map,
        GFS.pur, GFS.fail]
    · intro hE hErr
      unfold isValidGitRepo
      simp [getFilePathStats_eq, h1, hE, hErr, GFS.orElse, GFS.andThen,
        GFS.map, GFS.pur, GFS.fail]

/-- Like `envHappy` but every stat throws ENOENT. -/
def envStatEnoent : GitEnv :=
  { envHappy with stat := fun _ => .threw (.jsError "ENOENT") }

/-- Like `envHappy` but every stat throws a non-ENOENT error. -/
def envStatErr : GitEnv :=
  { envHappy with stat := fun _ => .threw (.jsError "EACCES") }

/-- Witness for the amended C3: concrete environments exercising the four
branches of the characterization, including the staging-lite branch whose
repo check runs against the staging volume. -/
theorem claimC3_amended_witness :
    (isValidGitRepo envHappy cfg0 "repo" "staging").result = .ok true ∧
    isValidGitRepo envC3 cfg0 "repo" "staging-lite" =
      ⟨.ok false,
       [.stat "/efs/staging-lite/repo/", .checkIsRepo "/efs/staging/repo"]⟩ ∧
    (isValidGitRepo envWrongOrigin cfg0 "repo" "staging").result = .ok false ∧
    (isValidGitRepo envStatEnoent cfg0 "repo" "staging").result = .ok false ∧
    (isValidGitRepo envStatErr cfg0 "repo" "staging").result =
      .error (.gitFs "Unable to read file/directory") := by
  refine ⟨?_, ?_, ?_, ?_, ?_⟩
  · exact claimC3_amended.1 envHappy cfg0 "repo" "staging" dirStats
      "git@github.com:isomerpages/repo.git" (by decide) (by decide)
      (by decide) (by decide) (by decide) (by decide)
  · exact claimC3_amended.2.1 envC3 cfg0 "repo" "staging-lite" dirStats
      (by decide) (by decide) (by decide)
  · exact claimC3_amended.2.2.1 envWrongOrigin cfg0 "repo" "staging" dirStats
      "git@github.com:isomerpages/other.git" (by decide) (by decide)
      (by decide) (by decide) (Or.inr (by decide))
  · exact (claimC3_amended.2.2.2 envStatEnoent cfg0 "repo" "staging"
      (.jsError "ENOENT") (by decide)).1 (by decide)
  · exact (claimC3_amended.2.2.2 envStatErr cfg0 "repo" "staging"
      (.jsError "EACCES") (by decide)).2 (by decide) (by decide)

end GitFS
